import Mathlib

/-!
Shallow embedding of the arena battle simulation of src/main.js.

JS numbers are modelled as rationals.  Math.hypot (a floating-point
square root) is modelled as an abstract function carried by the context
`Ctx`; theorems that need metric facts about it state them as explicit
hypotheses on that function.  CENTER and ARENA_RADIUS are derived from
the canvas element at runtime, so they are also fields of `Ctx`.

Rendering, audio and DOM code is outside the simulation core and is not
modelled.  The warrior fields heading, evadeDirection and evadeTimer are
omitted: the source writes them but only ever reads heading for drawing,
and never reads the other two, so they cannot influence positions,
health, cooldowns, projectiles or the outcome.  Hit effects are likewise
cosmetic only and omitted.
-/

attribute [local semireducible] Rat.add Rat.sub Rat.mul Rat.inv Rat.ofScientific

namespace Arena

inductive WType where
  | circle
  | square
  | triangle
  deriving DecidableEq, Repr

/-- One record of TYPE_CONFIG (src/main.js lines 41-73).  `preferredMin`
and `preferredMax` model the `preferred` object that only the triangle
entry carries; the source never reads `preferred` for the other two
types, and for them the two fields below hold a dummy 0. -/
structure Config where
  speed : ℚ
  hp : ℚ
  damage : ℚ
  range : ℚ
  cooldown : ℚ
  size : ℚ
  preferredMin : ℚ
  preferredMax : ℚ
  deriving DecidableEq, Repr

def TYPE_CONFIG : WType → Config
  | .circle => { speed := 140, hp := 55, damage := 9, range := 18,
                 cooldown := 0.55, size := 10, preferredMin := 0, preferredMax := 0 }
  | .square => { speed := 91, hp := 130, damage := 18, range := 22,
                 cooldown := 1.2, size := 16, preferredMin := 0, preferredMax := 0 }
  | .triangle => { speed := 90, hp := 85, damage := 7, range := 60,
                   cooldown := 0.8, size := 14, preferredMin := 40, preferredMax := 55 }

/-- Mutable state of a Warrior (src/main.js lines 92-107), minus the
render-only and never-read fields (heading, evadeDirection, evadeTimer). -/
structure Warrior where
  type : WType
  x : ℚ
  y : ℚ
  hp : ℚ
  cooldown : ℚ
  alive : Bool
  lastHitDirX : ℚ
  lastHitDirY : ℚ
  wantRetreat : ℚ
  deriving DecidableEq, Repr

/-- Mutable state of a Projectile (src/main.js lines 342-358). -/
structure Projectile where
  ownerType : WType
  damage : ℚ
  x : ℚ
  y : ℚ
  vx : ℚ
  vy : ℚ
  life : ℚ
  maxLife : ℚ
  alive : Bool
  radius : ℚ
  deriving DecidableEq, Repr

/-- Abstract environment: the model of Math.hypot together with the
canvas-derived arena geometry (CENTER, ARENA_RADIUS). -/
structure Ctx where
  hypot : ℚ → ℚ → ℚ
  centerX : ℚ
  centerY : ℚ
  arenaRadius : ℚ

/-- Warrior.distanceTo (src/main.js lines 109-113). -/
def distanceTo (ctx : Ctx) (a b : Warrior) : ℚ :=
  ctx.hypot (b.x - a.x) (b.y - a.y)

/-- Loop body of Warrior.findTarget (src/main.js lines 115-129).
The JS loop walks the array once; the reference comparison
`enemy === this` is modelled as an index comparison with `self`
(array elements are distinct objects).  `acc` holds the closest
candidate so far with its distance; `none` stands for the initial
`closest = null / distance = +Infinity`. -/
def findTargetGo (ctx : Ctx) (w : Warrior) (self : ℕ) :
    ℕ → List Warrior → Option (ℕ × ℚ) → Option (ℕ × ℚ)
  | _, [], acc => acc
  | j, e :: rest, acc =>
    if j = self ∨ e.alive = false ∨ e.type = w.type then
      findTargetGo ctx w self (j + 1) rest acc
    else
      let d := distanceTo ctx w e
      let acc2 :=
        match acc with
        | none => some (j, d)
        | some kb => if d < kb.2 then some (j, d) else some kb
      findTargetGo ctx w self (j + 1) rest acc2

/-- Warrior.findTarget, returning the index of the chosen target. -/
def findTarget (ctx : Ctx) (ws : List Warrior) (i : ℕ) : Option ℕ :=
  match ws[i]? with
  | none => none
  | some w => (findTargetGo ctx w i 0 ws none).map Prod.fst

/-- Warrior.takeDamage (src/main.js lines 131-137); playDeathSound is an
audio side effect and not modelled. -/
def takeDamage (w : Warrior) (amount : ℚ) : Warrior :=
  let hp2 := w.hp - amount
  if hp2 ≤ 0 then { w with hp := hp2, alive := false }
  else { w with hp := hp2 }

/-- Warrior.clampInsideArena (src/main.js lines 139-149). -/
def clampInsideArena (ctx : Ctx) (w : Warrior) : Warrior :=
  let dx := w.x - ctx.centerX
  let dy := w.y - ctx.centerY
  let dist := ctx.hypot dx dy
  let maxDist := ctx.arenaRadius - (TYPE_CONFIG w.type).size
  if maxDist < dist then
    let scale := maxDist / dist
    { w with x := ctx.centerX + dx * scale, y := ctx.centerY + dy * scale }
  else w

/-- The Projectile constructor (src/main.js lines 343-358), used by
fireProjectile.  `|| 1` replaces a zero hypot by 1 (0 is falsy in JS). -/
def mkProjectile (ctx : Ctx) (owner target : Warrior) : Projectile :=
  let dx := target.x - owner.x
  let dy := target.y - owner.y
  let h := ctx.hypot dx dy
  let dist := if h = 0 then 1 else h
  { ownerType := owner.type, damage := (TYPE_CONFIG owner.type).damage,
    x := owner.x, y := owner.y,
    vx := dx / dist * 260, vy := dy / dist * 260,
    life := 0, maxLife := 3.5, alive := true, radius := 4 }

/-- Warrior.attemptAttack (src/main.js lines 151-184).  Returns the new
attacker, the new target when a target was given, and the projectile
fired, if any.  spawnHitEffect is cosmetic and not modelled. -/
def attemptAttack (ctx : Ctx) (w : Warrior) (tOpt : Option Warrior) :
    Warrior × Option Warrior × Option Projectile :=
  match tOpt with
  | none => (w, none, none)
  | some t =>
    if t.alive = false ∨ 0 < w.cooldown then (w, some t, none)
    else
      let distance := distanceTo ctx w t
      if w.type = .triangle then
        if distance ≤ (TYPE_CONFIG w.type).range then
          ({ w with cooldown := (TYPE_CONFIG w.type).cooldown }, some t,
            some (mkProjectile ctx w t))
        else (w, some t, none)
      else
        let minDistance := (TYPE_CONFIG w.type).size + (TYPE_CONFIG t.type).size
        let meleeReach := max (TYPE_CONFIG w.type).range minDistance
        if distance ≤ meleeReach then
          let t2 := takeDamage t (TYPE_CONFIG w.type).damage
          let w2 := { w with cooldown := (TYPE_CONFIG w.type).cooldown }
          if w.type = .circle then
            let attackDx := t.x - w.x
            let attackDy := t.y - w.y
            let h := ctx.hypot attackDx attackDy
            let attackDist := if h = 0 then 1 else h
            ({ w2 with lastHitDirX := attackDx / attackDist,
                       lastHitDirY := attackDy / attackDist,
                       wantRetreat := if t.type = .square then 0.8 else 0.4 },
              some t2, none)
          else (w2, some t2, none)
        else (w, some t, none)

/-- Enemy half of the triangle evasion scan (src/main.js lines 237-249),
walking the roster with its index to model `enemy === this`. -/
def evadeGo (ctx : Ctx) (w : Warrior) (self : ℕ) :
    ℕ → List Warrior → ℚ × ℚ → ℚ × ℚ
  | _, [], acc => acc
  | j, e :: rest, acc =>
    let acc2 :=
      if e.alive = false ∨ e.type = w.type ∨ j = self then acc
      else
        let edx := e.x - w.x
        let edy := e.y - w.y
        let edist := ctx.hypot edx edy
        if edist < 50 ∧ 0 < edist then
          let strength := (50 - edist) / 50
          (acc.1 - edx / edist * strength, acc.2 - edy / edist * strength)
        else acc
    evadeGo ctx w self (j + 1) rest acc2

/-- Projectile half of the triangle evasion scan (src/main.js lines
251-263); projectile contributions are 1.5 times stronger. -/
def evadeProj (ctx : Ctx) (w : Warrior) :
    List Projectile → ℚ × ℚ → ℚ × ℚ
  | [], acc => acc
  | p :: rest, acc =>
    let acc2 :=
      if p.alive = false ∨ p.ownerType = w.type then acc
      else
        let pdx := p.x - w.x
        let pdy := p.y - w.y
        let pdist := ctx.hypot pdx pdy
        if pdist < 50 ∧ 0 < pdist then
          let strength := (50 - pdist) / 50
          (acc.1 - pdx / pdist * strength * 1.5, acc.2 - pdy / pdist * strength * 1.5)
        else acc
    evadeProj ctx w rest acc2

/-- Full evasion vector of a triangle (evadeRadius = 50). -/
def evadeVector (ctx : Ctx) (w : Warrior) (self : ℕ)
    (ws : List Warrior) (ps : List Projectile) : ℚ × ℚ :=
  evadeProj ctx w ps (evadeGo ctx w self 0 ws (0, 0))

/-- The cooldown / retreat-timer decay at the top of Warrior.update
(src/main.js lines 191-195). -/
def decayTimers (dt : ℚ) (w : Warrior) : Warrior :=
  { w with cooldown := max 0 (w.cooldown - dt),
           wantRetreat := if 0 < w.wantRetreat then max 0 (w.wantRetreat - dt)
                          else w.wantRetreat }

/-- The working distance of Warrior.update line 203:
`Math.hypot(dx, dy) || 1` from `w` to its target. -/
def distAdj (ctx : Ctx) (w tgt : Warrior) : ℚ :=
  let h := ctx.hypot (tgt.x - w.x) (tgt.y - w.y)
  if h = 0 then 1 else h

/-- The shouldMove flag of Warrior.update (src/main.js lines 208-225):
triangles move when the working distance is below threatRadius
(preferredMin times 1.4) or beyond their attack range; melee types move
while farther than the combined sizes, and a circle in its post-hit
retreat window always moves. -/
def shouldMoveF (ctx : Ctx) (w tgt : Warrior) : Bool :=
  let dist := distAdj ctx w tgt
  if w.type = .triangle then
    decide (dist < (TYPE_CONFIG w.type).preferredMin * 1.4) ||
      decide ((TYPE_CONFIG w.type).range < dist)
  else
    decide ((TYPE_CONFIG w.type).size + (TYPE_CONFIG tgt.type).size < dist) ||
      (decide (w.type = .circle) && decide (0 < w.wantRetreat))

/-- The movement direction of Warrior.update (src/main.js lines
227-310): base direction toward the target; triangles overlay kiting
(back away inside preferredMin, strafe 90 degrees inside the band) and
the 70/30 evasion blend; a circle in its retreat window replaces the
direction by the 60/40 back/side mix of its last hit direction. -/
def moveDir (ctx : Ctx) (w tgt : Warrior) (i : ℕ)
    (ws : List Warrior) (ps : List Projectile) : ℚ × ℚ :=
  let dx := tgt.x - w.x
  let dy := tgt.y - w.y
  let dist := distAdj ctx w tgt
  let d0 := (dx / dist, dy / dist)
  let d1 :=
    if w.type = .triangle then
      let ev := evadeVector ctx w i ws ps
      let base :=
        if dist < (TYPE_CONFIG w.type).preferredMin then (-dx / dist, -dy / dist)
        else if dist ≤ (TYPE_CONFIG w.type).preferredMax ∧ shouldMoveF ctx w tgt = true
          then (-d0.2, d0.1)
        else d0
      if 0.1 < |ev.1| ∨ 0.1 < |ev.2| then
        let evadeMag := ctx.hypot ev.1 ev.2
        let e := (ev.1 / evadeMag, ev.2 / evadeMag)
        let c := (base.1 * 0.3 + e.1 * 0.7, base.2 * 0.3 + e.2 * 0.7)
        let blendMag := ctx.hypot c.1 c.2
        if 0 < blendMag then (c.1 / blendMag, c.2 / blendMag) else c
      else base
    else d0
  if w.type = .circle ∧ 0 < w.wantRetreat then
    let mx := -w.lastHitDirX * 0.6 + -w.lastHitDirY * 0.4
    let my := -w.lastHitDirY * 0.6 + w.lastHitDirX * 0.4
    let m := ctx.hypot mx my
    let mag := if m = 0 then 1 else m
    (mx / mag, my / mag)
  else d1

/-- The movement part of Warrior.update (src/main.js lines 330-336):
move by speed times dt along the chosen direction and clamp, but only
when shouldMove is set.  Heading smoothing (lines 312-328) only writes
the render-only heading field and is omitted. -/
def moveSelf (ctx : Ctx) (dt : ℚ) (w tgt : Warrior) (i : ℕ)
    (ws : List Warrior) (ps : List Projectile) : Warrior :=
  if shouldMoveF ctx w tgt then
    clampInsideArena ctx
      { w with x := w.x + (moveDir ctx w tgt i ws ps).1 * ((TYPE_CONFIG w.type).speed * dt),
               y := w.y + (moveDir ctx w tgt i ws ps).2 * ((TYPE_CONFIG w.type).speed * dt) }
  else w

/-- Tail of Warrior.update once a living target `tgt` at index `j` is
fixed: move the (already decayed) self `w1`, run attemptAttack, write
the attacker back to slot `i`, write the (possibly damaged) target back
to slot `j`, and append any fired projectile.  `ws` already holds `w1`
at `i`. -/
def updateWarriorAux (ctx : Ctx) (dt : ℚ) (i j : ℕ) (ws : List Warrior)
    (ps : List Projectile) (w1 tgt : Warrior) :
    List Warrior × List Projectile :=
  match attemptAttack ctx (moveSelf ctx dt w1 tgt i ws ps) (some tgt) with
  | (wA, none, q) => (ws.set i wA, ps ++ q.toList)
  | (wA, some t2, q) => ((ws.set i wA).set j t2, ps ++ q.toList)

/-- Warrior.update (src/main.js lines 186-339) acting on the roster at
index `i`.  The JS method mutates `this`, its target and the global
projectile list in place; here the new roster and projectile list are
returned. -/
def updateWarrior (ctx : Ctx) (dt : ℚ) (i : ℕ) (ws : List Warrior)
    (ps : List Projectile) : List Warrior × List Projectile :=
  match ws[i]? with
  | none => (ws, ps)
  | some w0 =>
    if w0.alive = false then (ws, ps)
    else
      match findTarget ctx (ws.set i (decayTimers dt w0)) i with
      | none => (ws.set i (decayTimers dt w0), ps)
      | some j =>
        match (ws.set i (decayTimers dt w0))[j]? with
        | none => (ws.set i (decayTimers dt w0), ps)
        | some tgt =>
          updateWarriorAux ctx dt i j (ws.set i (decayTimers dt w0)) ps
            (decayTimers dt w0) tgt

/-- The collision scan of Projectile.update (src/main.js lines 376-388):
index of the first living enemy of a different type within
`enemy.config.size + this.radius` of the projectile. -/
def firstHitGo (ctx : Ctx) (p : Projectile) : ℕ → List Warrior → Option ℕ
  | _, [] => none
  | j, e :: rest =>
    if e.alive = false ∨ e.type = p.ownerType then firstHitGo ctx p (j + 1) rest
    else if ctx.hypot (e.x - p.x) (e.y - p.y) ≤ (TYPE_CONFIG e.type).size + p.radius
      then some j
    else firstHitGo ctx p (j + 1) rest

/-- The boundary expiry inside Projectile.update (src/main.js lines
370-374): mark the projectile dead when its distance from the arena
center reaches ARENA_RADIUS; execution continues either way. -/
def projBoundary (ctx : Ctx) (p : Projectile) : Projectile :=
  if ctx.arenaRadius ≤ ctx.hypot (p.x - ctx.centerX) (p.y - ctx.centerY)
  then { p with alive := false } else p

/-- The collision part of Projectile.update (src/main.js lines 376-388):
damage the first qualifying enemy, if any, and expire the projectile. -/
def projCollide (ctx : Ctx) (p : Projectile) (ws : List Warrior) :
    Projectile × List Warrior :=
  match firstHitGo ctx p 0 ws with
  | none => (p, ws)
  | some j =>
    match ws[j]? with
    | none => (p, ws)
    | some e => ({ p with alive := false }, ws.set j (takeDamage e p.damage))

/-- Projectile.update (src/main.js lines 360-389): advance age, expire on
maxLife (early return, before any movement), move, expire on leaving the
arena circle (no early return), then the collision scan against the
roster. -/
def updateProjectile (ctx : Ctx) (dt : ℚ) (p : Projectile)
    (ws : List Warrior) : Projectile × List Warrior :=
  if p.maxLife ≤ p.life + dt then ({ p with life := p.life + dt, alive := false }, ws)
  else
    projCollide ctx
      (projBoundary ctx
        { p with life := p.life + dt, x := p.x + p.vx * dt, y := p.y + p.vy * dt })
      ws

/-- The entity loop of the per-frame update (src/main.js lines 712-714):
every roster slot is updated in order against the evolving shared
state. -/
def entityPhase (ctx : Ctx) (dt : ℚ) (ws : List Warrior)
    (ps : List Projectile) : List Warrior × List Projectile :=
  (List.range ws.length).foldl
    (fun acc i => updateWarrior ctx dt i acc.1 acc.2) (ws, ps)

/-- One iteration of the projectile loop: update the projectile in slot
`i` against the current roster and write it back. -/
def projStep (ctx : Ctx) (dt : ℚ) (acc : List Projectile × List Warrior)
    (i : ℕ) : List Projectile × List Warrior :=
  match acc.1[i]? with
  | none => acc
  | some p =>
    ((acc.1.set i (updateProjectile ctx dt p acc.2).1),
      (updateProjectile ctx dt p acc.2).2)

/-- The projectile loop (src/main.js line 715): projectiles.forEach runs
over the list as it stands after the entity loop, newly fired
projectiles included. -/
def projPhase (ctx : Ctx) (dt : ℚ) (ps : List Projectile)
    (ws : List Warrior) : List Projectile × List Warrior :=
  (List.range ps.length).foldl (projStep ctx dt) (ps, ws)

/-- Per-type live count, as accumulated by updateStats
(src/main.js lines 637-668). -/
def aliveCount (ws : List Warrior) (t : WType) : ℕ :=
  (ws.filter (fun w => w.alive && decide (w.type = t))).length

/-- The types that still have a living member, in the fixed object-key
order circle, square, triangle (Object.entries in determineVictor,
src/main.js lines 670-684). -/
def livingTypes (ws : List Warrior) : List WType :=
  [WType.circle, WType.square, WType.triangle].filter
    (fun t => decide (0 < aliveCount ws t))

/-- determineVictor: `some winner` when the battle is over (`winner` is
the value stored in winnerType: a type on victory, none on a draw) and
`none` while the battle is still ongoing. -/
def determineVictor (ws : List Warrior) : Option (Option WType) :=
  if (livingTypes ws).length ≤ 1 then some (livingTypes ws).head? else none

/-- The simulation-relevant module state of src/main.js: the rosters
(lines 75-76), the running flag, lastTimestamp and winnerType
(lines 78-81). -/
structure Sim where
  warriors : List Warrior
  projectiles : List Projectile
  running : Bool
  lastTimestamp : ℚ
  winnerType : Option WType
  deriving DecidableEq, Repr

/-- End of a tick (src/main.js lines 725-733): given the pruned rosters,
evaluate determineVictor; a terminal verdict runs stopAnimation, whose
only simulation effect is running := false, and stores winnerType. -/
def stepResult (s : Sim) (timestamp : ℚ) (ws3 : List Warrior)
    (ps3 : List Projectile) : Sim :=
  match determineVictor ws3 with
  | some winner =>
    { warriors := ws3, projectiles := ps3, running := false,
      lastTimestamp := timestamp, winnerType := winner }
  | none =>
    { warriors := ws3, projectiles := ps3, running := true,
      lastTimestamp := timestamp, winnerType := s.winnerType }

/-- One tick: the function update(timestamp) of src/main.js lines
705-734, restricted to simulation state (drawing, hit effects and DOM
counters are cosmetic).  delta is the elapsed time in seconds; the
entity loop runs first, then the projectile loop over the list that now
also holds the projectiles fired during the entity loop, then dead
warriors and expired projectiles are filtered out. -/
def step (ctx : Ctx) (s : Sim) (timestamp : ℚ) : Sim :=
  if s.running = false then s
  else
    stepResult s timestamp
      ((projPhase ctx ((timestamp - s.lastTimestamp) / 1000)
        (entityPhase ctx ((timestamp - s.lastTimestamp) / 1000)
          s.warriors s.projectiles).2
        (entityPhase ctx ((timestamp - s.lastTimestamp) / 1000)
          s.warriors s.projectiles).1).2.filter (fun w => w.alive))
      ((projPhase ctx ((timestamp - s.lastTimestamp) / 1000)
        (entityPhase ctx ((timestamp - s.lastTimestamp) / 1000)
          s.warriors s.projectiles).2
        (entityPhase ctx ((timestamp - s.lastTimestamp) / 1000)
          s.warriors s.projectiles).1).1.filter (fun p => p.alive))

/-! ### Generic fold invariant -/

theorem foldl_inv {α β : Type} (P : α → Prop) (f : α → β → α) :
    ∀ (l : List β) (init : α), P init → (∀ a b, P a → P (f a b)) →
      P (l.foldl f init)
  | [], _, h0, _ => h0
  | b :: rest, init, h0, hstep =>
    foldl_inv P f rest (f init b) (hstep init b h0) hstep

/-! ### takeDamage -/

theorem takeDamage_alive_pos (w : Warrior) (a : ℚ) :
    (takeDamage w a).alive = true → 0 < (takeDamage w a).hp := by
  simp only [takeDamage]
  split
  · simp
  · next h => exact fun _ => lt_of_not_le h

theorem takeDamage_alive_iff (w : Warrior) (a : ℚ) (ha : 0 ≤ a)
    (hw : w.alive = true ↔ 0 < w.hp) :
    (takeDamage w a).alive = true ↔ 0 < (takeDamage w a).hp := by
  simp only [takeDamage]
  split
  · next h => simpa using not_lt.mpr h
  · next h =>
    have hpos : 0 < w.hp - a := lt_of_not_le h
    simp only []
    exact ⟨fun _ => hpos, fun _ => hw.mpr (by linarith)⟩

theorem takeDamage_fields (w : Warrior) (a : ℚ) :
    (takeDamage w a).x = w.x ∧ (takeDamage w a).y = w.y ∧
    (takeDamage w a).type = w.type ∧ (takeDamage w a).cooldown = w.cooldown ∧
    (takeDamage w a).wantRetreat = w.wantRetreat := by
  simp only [takeDamage]
  split <;> exact ⟨rfl, rfl, rfl, rfl, rfl⟩

/-! ### decayTimers -/

theorem decayTimers_fields (dt : ℚ) (w : Warrior) :
    (decayTimers dt w).x = w.x ∧ (decayTimers dt w).y = w.y ∧
    (decayTimers dt w).type = w.type ∧ (decayTimers dt w).hp = w.hp ∧
    (decayTimers dt w).alive = w.alive := ⟨rfl, rfl, rfl, rfl, rfl⟩

theorem decayTimers_cooldown (dt : ℚ) (w : Warrior) :
    (decayTimers dt w).cooldown = max 0 (w.cooldown - dt) := rfl

theorem decayTimers_wantRetreat_nonneg (dt : ℚ) (w : Warrior)
    (h : 0 ≤ w.wantRetreat) : 0 ≤ (decayTimers dt w).wantRetreat := by
  simp only [decayTimers]
  split
  · exact le_max_left _ _
  · exact h

/-! ### attemptAttack -/

theorem attemptAttack_self (ctx : Ctx) (w t : Warrior) :
    ((attemptAttack ctx w (some t)).1.x = w.x ∧
     (attemptAttack ctx w (some t)).1.y = w.y ∧
     (attemptAttack ctx w (some t)).1.type = w.type ∧
     (attemptAttack ctx w (some t)).1.hp = w.hp ∧
     (attemptAttack ctx w (some t)).1.alive = w.alive) ∧
    ((attemptAttack ctx w (some t)).1.cooldown = w.cooldown ∨
     (attemptAttack ctx w (some t)).1.cooldown = (TYPE_CONFIG w.type).cooldown) ∧
    ((attemptAttack ctx w (some t)).1.wantRetreat = w.wantRetreat ∨
     (attemptAttack ctx w (some t)).1.wantRetreat = 0.8 ∨
     (attemptAttack ctx w (some t)).1.wantRetreat = 0.4) := by
  simp only [attemptAttack]
  repeat' split
  all_goals
    refine ⟨⟨rfl, rfl, rfl, rfl, rfl⟩, ?_, ?_⟩ <;>
    first
      | exact Or.inl rfl
      | exact Or.inr rfl
      | exact Or.inr (Or.inl rfl)
      | exact Or.inr (Or.inr rfl)

theorem attemptAttack_target (ctx : Ctx) (w t t2 : Warrior)
    (h : (attemptAttack ctx w (some t)).2.1 = some t2) :
    t2 = t ∨ t2 = takeDamage t (TYPE_CONFIG w.type).damage := by
  simp only [attemptAttack] at h
  repeat' split at h
  all_goals
    simp only [Option.some.injEq] at h
    first
      | exact Or.inl h.symm
      | exact Or.inr h.symm

theorem attemptAttack_cooldown_blocks (ctx : Ctx) (w t : Warrior)
    (h : 0 < w.cooldown) : attemptAttack ctx w (some t) = (w, some t, none) := by
  simp only [attemptAttack]
  rw [if_pos (Or.inr h)]

theorem attemptAttack_triangle_fires (ctx : Ctx) (w t : Warrior)
    (halive : t.alive = true) (hcd : ¬ 0 < w.cooldown) (htri : w.type = .triangle)
    (hrange : distanceTo ctx w t ≤ (TYPE_CONFIG w.type).range) :
    attemptAttack ctx w (some t) =
      ({ w with cooldown := (TYPE_CONFIG w.type).cooldown }, some t,
        some (mkProjectile ctx w t)) := by
  simp only [attemptAttack]
  rw [if_neg (by simp [halive, hcd]), if_pos htri, if_pos hrange]

/-! ### clampInsideArena and movement -/

/-- The distance-from-center bound that clampInsideArena enforces. -/
abbrev inArena (ctx : Ctx) (w : Warrior) : Prop :=
  ctx.hypot (w.x - ctx.centerX) (w.y - ctx.centerY) ≤
    ctx.arenaRadius - (TYPE_CONFIG w.type).size

theorem clamp_id (ctx : Ctx) (w : Warrior) (h : inArena ctx w) :
    clampInsideArena ctx w = w := by
  simp only [clampInsideArena]
  rw [if_neg (not_lt.mpr h)]

theorem clamp_inArena (ctx : Ctx)
    (hscale : ∀ a b c : ℚ, 0 ≤ c → ctx.hypot (a * c) (b * c) = ctx.hypot a b * c)
    (hsize : ∀ t : WType, 0 ≤ ctx.arenaRadius - (TYPE_CONFIG t).size)
    (v : Warrior) : inArena ctx (clampInsideArena ctx v) := by
  simp only [clampInsideArena]
  split
  · next hgt =>
    have hmax : 0 ≤ ctx.arenaRadius - (TYPE_CONFIG v.type).size := hsize _
    have hdistpos : 0 < ctx.hypot (v.x - ctx.centerX) (v.y - ctx.centerY) :=
      lt_of_le_of_lt hmax hgt
    show ctx.hypot (ctx.centerX + _ - ctx.centerX) (ctx.centerY + _ - ctx.centerY) ≤ _
    rw [add_sub_cancel_left, add_sub_cancel_left,
      hscale _ _ _ (div_nonneg hmax hdistpos.le), mul_comm,
      div_mul_cancel₀ _ (ne_of_gt hdistpos)]
  · next hle => exact not_lt.mp hle

theorem moveSelf_shape (ctx : Ctx) (dt : ℚ) (w tgt : Warrior) (i : ℕ)
    (ws : List Warrior) (ps : List Projectile) :
    moveSelf ctx dt w tgt i ws ps = w ∨
    ∃ a b : ℚ,
      moveSelf ctx dt w tgt i ws ps = clampInsideArena ctx { w with x := a, y := b } := by
  simp only [moveSelf]
  split
  · exact Or.inr ⟨_, _, rfl⟩
  · exact Or.inl rfl

theorem clamp_shape (ctx : Ctx) (v : Warrior) :
    clampInsideArena ctx v = v ∨
    ∃ a b : ℚ, clampInsideArena ctx v = { v with x := a, y := b } := by
  simp only [clampInsideArena]
  split
  · exact Or.inr ⟨_, _, rfl⟩
  · exact Or.inl rfl

theorem moveSelf_vitals (ctx : Ctx) (dt : ℚ) (w tgt : Warrior) (i : ℕ)
    (ws : List Warrior) (ps : List Projectile) :
    (moveSelf ctx dt w tgt i ws ps).hp = w.hp ∧
    (moveSelf ctx dt w tgt i ws ps).alive = w.alive ∧
    (moveSelf ctx dt w tgt i ws ps).type = w.type ∧
    (moveSelf ctx dt w tgt i ws ps).cooldown = w.cooldown ∧
    (moveSelf ctx dt w tgt i ws ps).wantRetreat = w.wantRetreat := by
  rcases moveSelf_shape ctx dt w tgt i ws ps with h | ⟨a, b, h⟩
  · rw [h]; exact ⟨rfl, rfl, rfl, rfl, rfl⟩
  · rw [h]
    rcases clamp_shape ctx { w with x := a, y := b } with hc | ⟨c, d, hc⟩ <;>
      rw [hc] <;> exact ⟨rfl, rfl, rfl, rfl, rfl⟩

/-! ### findTarget and firstHit -/

theorem findTargetGo_spec (ctx : Ctx) (w : Warrior) (self : ℕ)
    (full : List Warrior) :
    ∀ (l : List Warrior) (j : ℕ) (acc : Option (ℕ × ℚ)),
      (∀ m : ℕ, l[m]? = full[j + m]?) →
      (∀ kb : ℕ × ℚ, acc = some kb → kb.1 ≠ self ∧
        ∃ e, full[kb.1]? = some e ∧ e.alive = true ∧ e.type ≠ w.type) →
      ∀ kb : ℕ × ℚ, findTargetGo ctx w self j l acc = some kb →
        kb.1 ≠ self ∧ ∃ e, full[kb.1]? = some e ∧ e.alive = true ∧ e.type ≠ w.type := by
  intro l
  induction l with
  | nil => intro j acc _ hacc kb h; exact hacc kb h
  | cons e rest ih =>
    intro j acc hidx hacc kb h
    have hrest : ∀ m : ℕ, rest[m]? = full[(j + 1) + m]? := by
      intro m
      simpa [show j + (m + 1) = (j + 1) + m by omega] using hidx (m + 1)
    have he : full[j]? = some e := by simpa using (hidx 0).symm
    simp only [findTargetGo] at h
    split at h
    · exact ih (j + 1) acc hrest hacc kb h
    · next hcond =>
      push_neg at hcond
      refine ih (j + 1) _ hrest ?_ kb h
      intro kb2 hkb2
      rcases acc with _ | kb0
      · simp only [Option.some.injEq] at hkb2
        subst hkb2
        exact ⟨hcond.1, e, he, by simpa using hcond.2.1, hcond.2.2⟩
      · simp only [] at hkb2
        split at hkb2 <;> simp only [Option.some.injEq] at hkb2 <;> subst hkb2
        · exact ⟨hcond.1, e, he, by simpa using hcond.2.1, hcond.2.2⟩
        · exact hacc kb0 rfl

theorem findTarget_spec (ctx : Ctx) (ws : List Warrior) (i j : ℕ)
    (h : findTarget ctx ws i = some j) :
    j ≠ i ∧ ∃ e, ws[j]? = some e ∧ e.alive = true ∧
      ∀ w, ws[i]? = some w → e.type ≠ w.type := by
  simp only [findTarget] at h
  split at h
  · exact absurd h (by simp)
  · next w hwi =>
    rcases Option.map_eq_some'.mp h with ⟨kb, hgo, hfst⟩
    have := findTargetGo_spec ctx w i ws ws 0 none
      (fun m => by simp) (by simp) kb hgo
    subst hfst
    exact ⟨this.1, this.2.imp fun e he2 =>
      ⟨he2.1, he2.2.1, fun w2 hw2 => by
        rw [hwi] at hw2
        cases hw2
        exact he2.2.2⟩⟩

theorem firstHitGo_spec (ctx : Ctx) (p : Projectile) (full : List Warrior) :
    ∀ (l : List Warrior) (j k : ℕ),
      (∀ m : ℕ, l[m]? = full[j + m]?) →
      firstHitGo ctx p j l = some k →
      ∃ e, full[k]? = some e ∧ e.alive = true ∧ e.type ≠ p.ownerType ∧
        ctx.hypot (e.x - p.x) (e.y - p.y) ≤ (TYPE_CONFIG e.type).size + p.radius := by
  intro l
  induction l with
  | nil => intro j k _ h; exact absurd h (by simp [firstHitGo])
  | cons e rest ih =>
    intro j k hidx h
    have hrest : ∀ m : ℕ, rest[m]? = full[(j + 1) + m]? := by
      intro m
      simpa [show j + (m + 1) = (j + 1) + m by omega] using hidx (m + 1)
    have he : full[j]? = some e := by simpa using (hidx 0).symm
    simp only [firstHitGo] at h
    split at h
    · exact ih (j + 1) k hrest h
    · next hcond =>
      push_neg at hcond
      split at h
      · next hdist =>
        simp only [Option.some.injEq] at h
        subst h
        exact ⟨e, he, by simpa using hcond.1, hcond.2, hdist⟩
      · exact ih (j + 1) k hrest h

theorem moveSelf_dt0 (ctx : Ctx) (w tgt : Warrior) (i : ℕ)
    (ws : List Warrior) (ps : List Projectile) (h : inArena ctx w) :
    moveSelf ctx 0 w tgt i ws ps = w := by
  simp only [moveSelf]
  split
  · rw [show ({ w with
        x := w.x + (moveDir ctx w tgt i ws ps).1 * ((TYPE_CONFIG w.type).speed * 0),
        y := w.y + (moveDir ctx w tgt i ws ps).2 * ((TYPE_CONFIG w.type).speed * 0) } : Warrior)
          = w by simp]
    exact clamp_id ctx w h
  · rfl

/-! ### updateWarrior -/

theorem updateWarrior_dead (ctx : Ctx) (dt : ℚ) (i : ℕ) (ws : List Warrior)
    (ps : List Projectile) (w : Warrior) (hwi : ws[i]? = some w)
    (hdead : w.alive = false) : updateWarrior ctx dt i ws ps = (ws, ps) := by
  unfold updateWarrior
  rw [hwi]
  simp only [hdead, if_pos]

theorem updateWarrior_pres (P : Warrior → Prop) (ctx : Ctx) (dt : ℚ)
    (hDecay : ∀ w, P w → P (decayTimers dt w))
    (hMove : ∀ w tgt i ws ps, P w → P (moveSelf ctx dt w tgt i ws ps))
    (hAtk : ∀ w t, P w → P (attemptAttack ctx w (some t)).1)
    (hTD : ∀ w a, P w → P (takeDamage w a))
    (i : ℕ) (ws : List Warrior) (ps : List Projectile)
    (hws : ∀ w ∈ ws, P w) :
    ∀ w2 ∈ (updateWarrior ctx dt i ws ps).1, P w2 := by
  intro w2 hw2
  unfold updateWarrior at hw2
  split at hw2
  · exact hws _ hw2
  · next w0 hwi =>
    have hP0 : P w0 := hws _ (List.getElem?_mem hwi)
    have hP1 : P (decayTimers dt w0) := hDecay _ hP0
    have hset : ∀ w3 ∈ ws.set i (decayTimers dt w0), P w3 := by
      intro w3 hw3
      rcases List.mem_or_eq_of_mem_set hw3 with h | h
      · exact hws _ h
      · exact h ▸ hP1
    split at hw2
    · exact hws _ hw2
    · split at hw2
      · exact hset _ hw2
      · next j hft =>
        split at hw2
        · exact hset _ hw2
        · next tgt htgt =>
          have hPt : P tgt := hset _ (List.getElem?_mem htgt)
          have hPA : P (attemptAttack ctx
              (moveSelf ctx dt (decayTimers dt w0) tgt i
                (ws.set i (decayTimers dt w0)) ps) (some tgt)).1 :=
            hAtk _ _ (hMove _ _ _ _ _ hP1)
          rcases hA : attemptAttack ctx
              (moveSelf ctx dt (decayTimers dt w0) tgt i
                (ws.set i (decayTimers dt w0)) ps) (some tgt) with ⟨wA, topt, q⟩
          rw [hA] at hPA
          unfold updateWarriorAux at hw2
          rw [hA] at hw2
          cases topt with
          | none =>
            simp only [] at hw2
            rcases List.mem_or_eq_of_mem_set hw2 with h | h
            · exact hset _ h
            · exact h ▸ hPA
          | some t2 =>
            simp only [] at hw2
            rcases List.mem_or_eq_of_mem_set hw2 with h | h
            · rcases List.mem_or_eq_of_mem_set h with h2 | h2
              · exact hset _ h2
              · exact h2 ▸ hPA
            · subst h
              have ht2 : (attemptAttack ctx
                  (moveSelf ctx dt (decayTimers dt w0) tgt i
                    (ws.set i (decayTimers dt w0)) ps) (some tgt)).2.1 = some w2 := by
                rw [hA]
              rcases attemptAttack_target ctx _ tgt w2 ht2 with h | h
              · exact h ▸ hPt
              · exact h ▸ hTD _ _ hPt

/-! ### updateProjectile -/

theorem projBoundary_fields (ctx : Ctx) (q : Projectile) :
    (projBoundary ctx q).ownerType = q.ownerType ∧
    (projBoundary ctx q).damage = q.damage ∧
    (projBoundary ctx q).x = q.x ∧ (projBoundary ctx q).y = q.y ∧
    (projBoundary ctx q).life = q.life := by
  unfold projBoundary
  split <;> exact ⟨rfl, rfl, rfl, rfl, rfl⟩

theorem projBoundary_alive (ctx : Ctx) (q : Projectile)
    (h : (projBoundary ctx q).alive = true) :
    ctx.hypot (q.x - ctx.centerX) (q.y - ctx.centerY) < ctx.arenaRadius := by
  unfold projBoundary at h
  split at h
  · simp at h
  · next hlt => exact lt_of_not_le hlt

theorem updateProjectile_ws (P : Warrior → Prop)
    (hTD : ∀ w a, P w → P (takeDamage w a))
    (ctx : Ctx) (dt : ℚ) (p : Projectile) (ws : List Warrior)
    (hws : ∀ w ∈ ws, P w) :
    ∀ w2 ∈ (updateProjectile ctx dt p ws).2, P w2 := by
  intro w2 hw2
  unfold updateProjectile at hw2
  split at hw2
  · exact hws _ hw2
  · unfold projCollide at hw2
    split at hw2
    · exact hws _ hw2
    · split at hw2
      · exact hws _ hw2
      · next e hje =>
        rcases List.mem_or_eq_of_mem_set hw2 with h | h
        · exact hws _ h
        · subst h
          exact hTD _ _ (hws _ (List.getElem?_mem hje))

theorem updateProjectile_same_type (ctx : Ctx) (dt : ℚ) (p : Projectile)
    (ws : List Warrior) (j : ℕ) (e : Warrior) (hj : ws[j]? = some e)
    (hty : e.type = p.ownerType) :
    (updateProjectile ctx dt p ws).2[j]? = some e := by
  unfold updateProjectile
  split
  · exact hj
  · unfold projCollide
    split
    · exact hj
    · next k hk =>
      split
      · exact hj
      · next e2 hke2 =>
        rcases firstHitGo_spec ctx _ ws ws 0 k (fun m => by simp) hk
          with ⟨e3, hke3, _, hty3, _⟩
        rw [(projBoundary_fields ctx _).1] at hty3
        have hjk : k ≠ j := by
          intro hkj
          subst hkj
          rw [hj] at hke3
          cases hke3
          exact hty3 hty
        rw [List.getElem?_set_ne hjk]
        exact hj

theorem updateProjectile_dead_untouched (ctx : Ctx) (dt : ℚ) (p : Projectile)
    (ws : List Warrior) (j : ℕ) (e : Warrior) (hj : ws[j]? = some e)
    (hdead : e.alive = false) :
    (updateProjectile ctx dt p ws).2[j]? = some e := by
  unfold updateProjectile
  split
  · exact hj
  · unfold projCollide
    split
    · exact hj
    · next k hk =>
      split
      · exact hj
      · next e2 hke2 =>
        rcases firstHitGo_spec ctx _ ws ws 0 k (fun m => by simp) hk
          with ⟨e3, hke3, halive3, _, _⟩
        have hjk : k ≠ j := by
          intro hkj
          subst hkj
          rw [hj] at hke3
          cases hke3
          rw [hdead] at halive3
          cases halive3
        rw [List.getElem?_set_ne hjk]
        exact hj

theorem updateProjectile_life (ctx : Ctx) (dt : ℚ) (p : Projectile)
    (ws : List Warrior) :
    (updateProjectile ctx dt p ws).1.life = p.life + dt := by
  unfold updateProjectile
  split
  · rfl
  · unfold projCollide
    split
    · exact (projBoundary_fields ctx _).2.2.2.2
    · split
      · exact (projBoundary_fields ctx _).2.2.2.2
      · exact (projBoundary_fields ctx _).2.2.2.2

theorem updateProjectile_alive_inb (ctx : Ctx) (dt : ℚ) (p : Projectile)
    (ws : List Warrior) (p2 : Projectile)
    (hp2 : (updateProjectile ctx dt p ws).1 = p2)
    (halive : p2.alive = true) :
    ctx.hypot (p2.x - ctx.centerX) (p2.y - ctx.centerY) < ctx.arenaRadius := by
  subst hp2
  unfold updateProjectile at halive ⊢
  split at halive
  · simp at halive
  · next hcond =>
    rw [if_neg hcond]
    unfold projCollide at halive ⊢
    split at halive
    · dsimp only at halive ⊢
      rw [(projBoundary_fields ctx _).2.2.1, (projBoundary_fields ctx _).2.2.2.1]
      exact projBoundary_alive ctx _ halive
    · split at halive
      · dsimp only at halive ⊢
        rw [(projBoundary_fields ctx _).2.2.1, (projBoundary_fields ctx _).2.2.2.1]
        exact projBoundary_alive ctx _ halive
      · simp at halive

theorem updateProjectile_dt0_pos (ctx : Ctx) (p : Projectile)
    (ws : List Warrior) :
    (updateProjectile ctx 0 p ws).1.x = p.x ∧
    (updateProjectile ctx 0 p ws).1.y = p.y := by
  unfold updateProjectile
  split
  · exact ⟨rfl, rfl⟩
  · unfold projCollide
    have hx : (projBoundary ctx
        { p with life := p.life + 0, x := p.x + p.vx * 0, y := p.y + p.vy * 0 }).x = p.x := by
      rw [(projBoundary_fields ctx _).2.2.1]
      simp
    have hy : (projBoundary ctx
        { p with life := p.life + 0, x := p.x + p.vx * 0, y := p.y + p.vy * 0 }).y = p.y := by
      rw [(projBoundary_fields ctx _).2.2.2.1]
      simp
    split
    · exact ⟨hx, hy⟩
    · split
      · exact ⟨hx, hy⟩
      · exact ⟨hx, hy⟩

/-! ### Phase-level lemmas -/

theorem projStep_none (ctx : Ctx) (dt : ℚ)
    (acc : List Projectile × List Warrior) (i : ℕ)
    (h : acc.1[i]? = none) : projStep ctx dt acc i = acc := by
  unfold projStep
  rw [h]

theorem projStep_some (ctx : Ctx) (dt : ℚ)
    (acc : List Projectile × List Warrior) (i : ℕ) (p : Projectile)
    (h : acc.1[i]? = some p) :
    projStep ctx dt acc i =
      (acc.1.set i (updateProjectile ctx dt p acc.2).1,
        (updateProjectile ctx dt p acc.2).2) := by
  unfold projStep
  rw [h]

theorem projStep_foldl_spec (ctx : Ctx) (dt : ℚ) (ps : List Projectile)
    (ws : List Warrior) :
    ∀ n : ℕ,
      (((List.range n).foldl (projStep ctx dt) (ps, ws)).1.length = ps.length) ∧
      (∀ i p, i < n → ps[i]? = some p →
        ∃ wsMid, ((List.range n).foldl (projStep ctx dt) (ps, ws)).1[i]? =
          some (updateProjectile ctx dt p wsMid).1) ∧
      (∀ i, n ≤ i →
        ((List.range n).foldl (projStep ctx dt) (ps, ws)).1[i]? = ps[i]?) := by
  intro n
  induction n with
  | zero =>
    refine ⟨rfl, ?_, fun i _ => rfl⟩
    intro i p hi
    exact absurd hi (Nat.not_lt_zero i)
  | succ n ih =>
    obtain ⟨ihlen, ihdone, ihrest⟩ := ih
    rw [List.range_succ, List.foldl_append, List.foldl_cons, List.foldl_nil]
    cases hpn : ((List.range n).foldl (projStep ctx dt) (ps, ws)).1[n]? with
    | none =>
      rw [projStep_none ctx dt _ n hpn]
      refine ⟨ihlen, ?_, fun i hi => ihrest i (by omega)⟩
      intro i p hi hpi
      rcases Nat.lt_succ_iff_lt_or_eq.mp hi with h | h
      · exact ihdone i p h hpi
      · subst h
        rw [ihrest i le_rfl, hpi] at hpn
        cases hpn
    | some p0 =>
      rw [projStep_some ctx dt _ n p0 hpn]
      have hps_n : ps[n]? = some p0 := (ihrest n le_rfl).symm.trans hpn
      have hlt : n <
          ((List.range n).foldl (projStep ctx dt) (ps, ws)).1.length := by
        rw [ihlen]
        exact (List.getElem?_eq_some_iff.mp hps_n).1
      refine ⟨by rw [List.length_set, ihlen], ?_, ?_⟩
      · intro i p hi hpi
        rcases Nat.lt_succ_iff_lt_or_eq.mp hi with h | h
        · rcases ihdone i p h hpi with ⟨wsMid, hmid⟩
          exact ⟨wsMid, by rw [List.getElem?_set_ne (by omega), hmid]⟩
        · subst h
          rw [hpi] at hps_n
          cases hps_n
          exact ⟨_, List.getElem?_set_self hlt⟩
      · intro i hi
        rw [List.getElem?_set_ne (by omega)]
        exact ihrest i (by omega)

theorem projPhase_spec (ctx : Ctx) (dt : ℚ) (ps : List Projectile)
    (ws : List Warrior) :
    (projPhase ctx dt ps ws).1.length = ps.length ∧
    ∀ (i : ℕ) (p : Projectile), ps[i]? = some p → ∃ wsMid,
      (projPhase ctx dt ps ws).1[i]? = some (updateProjectile ctx dt p wsMid).1 := by
  obtain ⟨h1, h2, _⟩ := projStep_foldl_spec ctx dt ps ws ps.length
  refine ⟨h1, ?_⟩
  intro i p hpi
  exact h2 i p (List.getElem?_eq_some_iff.mp hpi).1 hpi

theorem entityPhase_pres (P : Warrior → Prop) (ctx : Ctx) (dt : ℚ)
    (hDecay : ∀ w, P w → P (decayTimers dt w))
    (hMove : ∀ w tgt i ws ps, P w → P (moveSelf ctx dt w tgt i ws ps))
    (hAtk : ∀ w t, P w → P (attemptAttack ctx w (some t)).1)
    (hTD : ∀ w a, P w → P (takeDamage w a))
    (ws : List Warrior) (ps : List Projectile) (hws : ∀ w ∈ ws, P w) :
    ∀ w2 ∈ (entityPhase ctx dt ws ps).1, P w2 := by
  unfold entityPhase
  exact foldl_inv (fun acc => ∀ w2 ∈ acc.1, P w2) _ (List.range ws.length)
    (ws, ps) hws
    (fun acc i hacc => updateWarrior_pres P ctx dt hDecay hMove hAtk hTD
      i acc.1 acc.2 hacc)

theorem projPhase_ws_pres (P : Warrior → Prop)
    (hTD : ∀ w a, P w → P (takeDamage w a)) (ctx : Ctx) (dt : ℚ)
    (ps : List Projectile) (ws : List Warrior) (hws : ∀ w ∈ ws, P w) :
    ∀ w2 ∈ (projPhase ctx dt ps ws).2, P w2 := by
  unfold projPhase
  refine foldl_inv (fun acc => ∀ w2 ∈ acc.2, P w2) _ (List.range ps.length)
    (ps, ws) hws ?_
  intro acc i hacc
  unfold projStep
  split
  · exact hacc
  · next p hpi =>
    exact updateProjectile_ws P hTD ctx dt p acc.2 hacc

/-! ### step -/

theorem step_not_running (ctx : Ctx) (s : Sim) (t : ℚ)
    (h : s.running = false) : step ctx s t = s := by
  unfold step
  rw [if_pos h]

theorem step_components (ctx : Ctx) (s : Sim) (t : ℚ)
    (h : s.running = true) :
    (step ctx s t).warriors =
      (projPhase ctx ((t - s.lastTimestamp) / 1000)
        (entityPhase ctx ((t - s.lastTimestamp) / 1000)
          s.warriors s.projectiles).2
        (entityPhase ctx ((t - s.lastTimestamp) / 1000)
          s.warriors s.projectiles).1).2.filter (fun w => w.alive) ∧
    (step ctx s t).projectiles =
      (projPhase ctx ((t - s.lastTimestamp) / 1000)
        (entityPhase ctx ((t - s.lastTimestamp) / 1000)
          s.warriors s.projectiles).2
        (entityPhase ctx ((t - s.lastTimestamp) / 1000)
          s.warriors s.projectiles).1).1.filter (fun p => p.alive) := by
  unfold step
  rw [if_neg (by simp [h])]
  unfold stepResult
  split <;> exact ⟨rfl, rfl⟩

theorem determineVictor_of_le_one (ws : List Warrior)
    (h : (livingTypes ws).length ≤ 1) :
    determineVictor ws = some (livingTypes ws).head? := by
  unfold determineVictor
  rw [if_pos h]

theorem step_terminal_running (ctx : Ctx) (s : Sim) (t : ℚ)
    (h : (livingTypes (step ctx s t).warriors).length ≤ 1) :
    (step ctx s t).running = false := by
  by_cases hr : s.running = false
  · rw [step_not_running ctx s t hr] at h ⊢
    exact hr
  · have hr2 : s.running = true := by
      revert hr
      cases s.running <;> simp
    have h2 : (livingTypes ((projPhase ctx ((t - s.lastTimestamp) / 1000)
        (entityPhase ctx ((t - s.lastTimestamp) / 1000)
          s.warriors s.projectiles).2
        (entityPhase ctx ((t - s.lastTimestamp) / 1000)
          s.warriors s.projectiles).1).2.filter
            (fun w => w.alive))).length ≤ 1 := by
      rw [← (step_components ctx s t hr2).1]
      exact h
    unfold step
    rw [if_neg (by simp [hr2])]
    unfold stepResult
    split
    · rfl
    · next hdv =>
      rw [determineVictor_of_le_one _ h2] at hdv
      cases hdv

/-! ### Positions under a zero tick -/

/-- The second roster has the same length and pointwise the same
positions and types as the first. -/
def posEq (ws ws2 : List Warrior) : Prop :=
  ws2.length = ws.length ∧
  ∀ (j : ℕ) (w2 : Warrior), ws2[j]? = some w2 →
    ∃ w, ws[j]? = some w ∧ w2.x = w.x ∧ w2.y = w.y ∧ w2.type = w.type

theorem posEq_refl (ws : List Warrior) : posEq ws ws :=
  ⟨rfl, fun _j w2 h => ⟨w2, h, rfl, rfl, rfl⟩⟩

theorem posEq_trans {a b c : List Warrior} (h1 : posEq a b) (h2 : posEq b c) :
    posEq a c := by
  refine ⟨h2.1.trans h1.1, ?_⟩
  intro j w2 hj
  rcases h2.2 j w2 hj with ⟨wb, hb, hx, hy, ht⟩
  rcases h1.2 j wb hb with ⟨wa, ha, hx2, hy2, ht2⟩
  exact ⟨wa, ha, hx.trans hx2, hy.trans hy2, ht.trans ht2⟩

theorem posEq_inArena (ctx : Ctx) {ws ws2 : List Warrior}
    (h : posEq ws ws2) (hin : ∀ w ∈ ws, inArena ctx w) :
    ∀ w2 ∈ ws2, inArena ctx w2 := by
  intro w2 hw2
  rcases List.mem_iff_getElem?.mp hw2 with ⟨j, hj⟩
  rcases h.2 j w2 hj with ⟨w, hwj, hx, hy, ht⟩
  unfold inArena
  rw [hx, hy, ht]
  exact hin _ (List.getElem?_mem hwj)

theorem posEq_set (ws : List Warrior) (i : ℕ) (w w2 : Warrior)
    (hwi : ws[i]? = some w) (hx : w2.x = w.x) (hy : w2.y = w.y)
    (ht : w2.type = w.type) : posEq ws (ws.set i w2) := by
  refine ⟨List.length_set ws i w2, ?_⟩
  intro j wj hj
  by_cases hij : i = j
  · subst hij
    rw [List.getElem?_set_self (List.getElem?_eq_some_iff.mp hwi).1] at hj
    cases hj
    exact ⟨w, hwi, hx, hy, ht⟩
  · rw [List.getElem?_set_ne hij] at hj
    exact ⟨wj, hj, rfl, rfl, rfl⟩

theorem updateWarrior_dt0_posEq (ctx : Ctx) (i : ℕ) (ws : List Warrior)
    (ps : List Projectile) (hin : ∀ w ∈ ws, inArena ctx w) :
    posEq ws (updateWarrior ctx 0 i ws ps).1 := by
  unfold updateWarrior
  split
  · exact posEq_refl ws
  · next w0 hwi =>
    split
    · exact posEq_refl ws
    · have hdx := (decayTimers_fields 0 w0).1
      have hdy := (decayTimers_fields 0 w0).2.1
      have hdty := (decayTimers_fields 0 w0).2.2.1
      have hsetEq : posEq ws (ws.set i (decayTimers 0 w0)) :=
        posEq_set ws i w0 _ hwi hdx hdy hdty
      split
      · exact hsetEq
      · next j hft =>
        split
        · exact hsetEq
        · next tgt htgt =>
          have hji : j ≠ i := (findTarget_spec ctx _ i j hft).1
          have hinw1 : inArena ctx (decayTimers 0 w0) := by
            unfold inArena
            rw [hdx, hdy, hdty]
            exact hin _ (List.getElem?_mem hwi)
          have hmv : moveSelf ctx 0 (decayTimers 0 w0) tgt i
              (ws.set i (decayTimers 0 w0)) ps = decayTimers 0 w0 :=
            moveSelf_dt0 ctx _ tgt i _ ps hinw1
          rcases hA : attemptAttack ctx (moveSelf ctx 0 (decayTimers 0 w0) tgt i
              (ws.set i (decayTimers 0 w0)) ps) (some tgt) with ⟨wA, topt, q⟩
          have hself := attemptAttack_self ctx (moveSelf ctx 0 (decayTimers 0 w0) tgt i
              (ws.set i (decayTimers 0 w0)) ps) tgt
          rw [hA] at hself
          have hAx : wA.x = w0.x := by
            have h1 := hself.1.1
            rw [hmv] at h1
            exact h1.trans hdx
          have hAy : wA.y = w0.y := by
            have h1 := hself.1.2.1
            rw [hmv] at h1
            exact h1.trans hdy
          have hAty : wA.type = w0.type := by
            have h1 := hself.1.2.2.1
            rw [hmv] at h1
            exact h1.trans hdty
          have hsetA : posEq ws (ws.set i wA) :=
            posEq_set ws i w0 wA hwi hAx hAy hAty
          have htgt2 : ws[j]? = some tgt := by
            rw [List.getElem?_set_ne (fun hh => hji hh.symm)] at htgt
            exact htgt
          have htgtA : (ws.set i wA)[j]? = some tgt := by
            rw [List.getElem?_set_ne (fun hh => hji hh.symm)]
            exact htgt2
          unfold updateWarriorAux
          rw [hA]
          cases topt with
          | none =>
            simp only []
            rw [List.set_set]
            exact hsetA
          | some t2 =>
            simp only []
            rw [List.set_set]
            have ht2 : (attemptAttack ctx (moveSelf ctx 0 (decayTimers 0 w0) tgt i
                (ws.set i (decayTimers 0 w0)) ps) (some tgt)).2.1 = some t2 := by
              rw [hA]
            rcases attemptAttack_target ctx _ tgt t2 ht2 with h | h
            · subst h
              exact posEq_trans hsetA
                (posEq_set _ j t2 t2 htgtA rfl rfl rfl)
            · have htf := takeDamage_fields tgt (TYPE_CONFIG
                (moveSelf ctx 0 (decayTimers 0 w0) tgt i
                  (ws.set i (decayTimers 0 w0)) ps).type).damage
              subst h
              exact posEq_trans hsetA
                (posEq_set _ j tgt _ htgtA htf.1 htf.2.1 htf.2.2.1)

theorem entityPhase_dt0_posEq (ctx : Ctx) (ws : List Warrior)
    (ps : List Projectile) (hin : ∀ w ∈ ws, inArena ctx w) :
    posEq ws (entityPhase ctx 0 ws ps).1 := by
  unfold entityPhase
  refine foldl_inv (fun acc => posEq ws acc.1) _ (List.range ws.length)
    (ws, ps) (posEq_refl ws) ?_
  intro acc i hacc
  exact posEq_trans hacc
    (updateWarrior_dt0_posEq ctx i acc.1 acc.2 (posEq_inArena ctx hacc hin))

/-! ### A warrior that should not move holds its position -/

theorem shouldMove_triangle_false (ctx : Ctx) (w tgt : Warrior)
    (htri : w.type = .triangle)
    (h1 : ¬ distAdj ctx w tgt < (TYPE_CONFIG WType.triangle).preferredMin * 1.4)
    (h2 : ¬ (TYPE_CONFIG WType.triangle).range < distAdj ctx w tgt) :
    shouldMoveF ctx w tgt = false := by
  unfold shouldMoveF
  rw [if_pos htri, htri]
  simp only [Bool.or_eq_false_iff, decide_eq_false_iff_not]
  exact ⟨h1, h2⟩

theorem moveSelf_no_move (ctx : Ctx) (dt : ℚ) (w tgt : Warrior) (i : ℕ)
    (ws : List Warrior) (ps : List Projectile)
    (h : shouldMoveF ctx w tgt = false) :
    moveSelf ctx dt w tgt i ws ps = w := by
  unfold moveSelf
  rw [h]
  rfl

theorem updateWarrior_holds_position (ctx : Ctx) (dt : ℚ) (i j : ℕ)
    (ws : List Warrior) (ps : List Projectile) (w0 tgt : Warrior)
    (hwi : ws[i]? = some w0) (halive : w0.alive = true)
    (hft : findTarget ctx (ws.set i (decayTimers dt w0)) i = some j)
    (htgt : (ws.set i (decayTimers dt w0))[j]? = some tgt)
    (hsm : shouldMoveF ctx (decayTimers dt w0) tgt = false) :
    ∃ w2, (updateWarrior ctx dt i ws ps).1[i]? = some w2 ∧
      w2.x = w0.x ∧ w2.y = w0.y := by
  have hji : j ≠ i := (findTarget_spec ctx _ i j hft).1
  have hlen : i < ws.length := (List.getElem?_eq_some_iff.mp hwi).1
  unfold updateWarrior
  rw [hwi]
  simp only [halive]
  rw [if_neg (by simp)]
  rw [hft]
  dsimp only
  rw [htgt]
  dsimp only
  unfold updateWarriorAux
  rw [moveSelf_no_move ctx dt _ tgt i _ ps hsm]
  rcases hA : attemptAttack ctx (decayTimers dt w0) (some tgt) with ⟨wA, topt, q⟩
  have hself := attemptAttack_self ctx (decayTimers dt w0) tgt
  rw [hA] at hself
  have hAx : wA.x = w0.x := hself.1.1.trans (decayTimers_fields dt w0).1
  have hAy : wA.y = w0.y := hself.1.2.1.trans (decayTimers_fields dt w0).2.1
  cases topt with
  | none =>
    simp only []
    refine ⟨wA, ?_, hAx, hAy⟩
    rw [List.set_set]
    exact List.getElem?_set_self (by simpa using hlen)
  | some t2 =>
    simp only []
    refine ⟨wA, ?_, hAx, hAy⟩
    rw [List.getElem?_set_ne hji, List.set_set]
    exact List.getElem?_set_self (by simpa using hlen)

/-! ### Auxiliary facts used by the claim witnesses -/

theorem takeDamage_hp (w : Warrior) (a : ℚ) :
    (takeDamage w a).hp = w.hp - a := by
  simp only [takeDamage]
  split <;> rfl

theorem cfg_cooldown_nonneg : ∀ ty : WType, 0 ≤ (TYPE_CONFIG ty).cooldown := by
  intro ty
  cases ty <;> decide

/-! ### Concrete scenarios

All concrete scenarios keep every pair of positions axis-aligned
(equal y throughout, movement and projectile velocities along x), so
the taxicab function below returns exactly the same value as the
Euclidean Math.hypot on every call the code makes in these runs. -/

def taxiHypot : ℚ → ℚ → ℚ := fun a b => |a| + |b|

theorem taxiHypot_scale : ∀ a b c : ℚ, 0 ≤ c →
    taxiHypot (a * c) (b * c) = taxiHypot a b * c := by
  intro a b c hc
  unfold taxiHypot
  rw [abs_mul, abs_mul, abs_of_nonneg hc]
  ring

/-- A 640x640 canvas gives CENTER = (300, 300) after the UI chrome and
ARENA_RADIUS = 260. -/
def ctxAx : Ctx :=
  { hypot := taxiHypot, centerX := 300, centerY := 300, arenaRadius := 260 }

def mkWarrior (t : WType) (x y hp cd : ℚ) : Warrior :=
  { type := t, x := x, y := y, hp := hp, cooldown := cd, alive := true,
    lastHitDirX := 0, lastHitDirY := 0, wantRetreat := 0 }

/-! ## Claim theorems -/

/-- C2: for every projectile and every entity, if the projectile's
ownerType equals the entity's type, then no update of that projectile
ever changes that entity at all — in particular it never reduces its
hp.  This holds for every state, hence for every reachable one: the
collision scan of Projectile.update skips entities whose type equals
the projectile's ownerType, so the only roster slot an update can touch
is one of a different type. -/
theorem C2_no_friendly_fire (ctx : Ctx) (dt : ℚ) (p : Projectile)
    (ws : List Warrior) (j : ℕ) (e : Warrior) (hj : ws[j]? = some e)
    (hty : e.type = p.ownerType) :
    (updateProjectile ctx dt p ws).2[j]? = some e ∧
    ∃ e2, (updateProjectile ctx dt p ws).2[j]? = some e2 ∧ e2.hp = e.hp := by
  have h := updateProjectile_same_type ctx dt p ws j e hj hty
  exact ⟨h, e, h, rfl⟩

def wSameType : Warrior := mkWarrior .triangle 250 300 85 0

def pOwn : Projectile :=
  { ownerType := .triangle, damage := 7, x := 248, y := 300, vx := 260, vy := 0,
    life := 0, maxLife := 3.5, alive := true, radius := 4 }

/-- C2 witness: a projectile flying straight through a triangle of its
own archetype leaves it untouched. -/
theorem C2_no_friendly_fire_witness :
    [wSameType][0]? = some wSameType ∧ wSameType.type = pOwn.ownerType ∧
    ((updateProjectile ctxAx (1/100) pOwn [wSameType]).2[0]? = some wSameType ∧
      ∃ e2, (updateProjectile ctxAx (1/100) pOwn [wSameType]).2[0]? = some e2 ∧
        e2.hp = wSameType.hp) :=
  ⟨by decide, by decide,
    C2_no_friendly_fire ctxAx (1/100) pOwn [wSameType] 0 wSameType
      (by decide) (by decide)⟩

/-- C5 counterexample: a ranged triangle with cooldown 0.3 still
running, a living square target at distance 56 ≤ engageRange 60 —
attemptAttack does nothing: no projectile is spawned and the cooldown
is not reset, because the guard at the top of attemptAttack returns
when cooldown > 0 for every archetype, the ranged one included. -/
theorem C5_counterexample :
    (mkWarrior .triangle 244 300 85 (3/10)).cooldown = 3/10 ∧
    0 < (mkWarrior .triangle 244 300 85 (3/10)).cooldown ∧
    (mkWarrior .square 300 300 130 1).alive = true ∧
    distanceTo ctxAx (mkWarrior .triangle 244 300 85 (3/10))
      (mkWarrior .square 300 300 130 1) = 56 ∧
    distanceTo ctxAx (mkWarrior .triangle 244 300 85 (3/10))
      (mkWarrior .square 300 300 130 1) ≤ (TYPE_CONFIG WType.triangle).range ∧
    attemptAttack ctxAx (mkWarrior .triangle 244 300 85 (3/10))
      (some (mkWarrior .square 300 300 130 1)) =
      (mkWarrior .triangle 244 300 85 (3/10),
        some (mkWarrior .square 300 300 130 1), none) := by
  decide

/-- C5 amended: attemptAttack returns immediately for every archetype
when cooldown > 0 (so a ranged entity with positive cooldown remaining
and a living in-range target does NOT fire); the triangle branch itself
adds no further cooldown test: a ranged entity with cooldown ≤ 0 and a
living target within engageRange spawns a projectile toward the target
and resets the cooldown. -/
theorem C5_amended :
    (∀ (ctx : Ctx) (w t : Warrior), 0 < w.cooldown →
      attemptAttack ctx w (some t) = (w, some t, none)) ∧
    (∀ (ctx : Ctx) (w t : Warrior), w.type = WType.triangle →
      ¬ 0 < w.cooldown → t.alive = true →
      distanceTo ctx w t ≤ (TYPE_CONFIG w.type).range →
      attemptAttack ctx w (some t) =
        ({ w with cooldown := (TYPE_CONFIG w.type).cooldown }, some t,
          some (mkProjectile ctx w t))) :=
  ⟨fun ctx w t h => attemptAttack_cooldown_blocks ctx w t h,
    fun ctx w t htri hcd halive hrange =>
      attemptAttack_triangle_fires ctx w t halive hcd htri hrange⟩

/-- C5 amended witness: the same triangle with cooldown 0 fires at the
square and resets its cooldown to 0.8. -/
theorem C5_amended_witness :
    (0 < (mkWarrior .triangle 250 300 85 (3/10)).cooldown ∧
      attemptAttack ctxAx (mkWarrior .triangle 250 300 85 (3/10))
        (some (mkWarrior .square 300 300 130 1)) =
        (mkWarrior .triangle 250 300 85 (3/10),
          some (mkWarrior .square 300 300 130 1), none)) ∧
    ((mkWarrior .triangle 250 300 85 0).type = WType.triangle ∧
      ¬ 0 < (mkWarrior .triangle 250 300 85 0).cooldown ∧
      (mkWarrior .square 300 300 130 1).alive = true ∧
      distanceTo ctxAx (mkWarrior .triangle 250 300 85 0)
        (mkWarrior .square 300 300 130 1) ≤ (TYPE_CONFIG WType.triangle).range ∧
      attemptAttack ctxAx (mkWarrior .triangle 250 300 85 0)
        (some (mkWarrior .square 300 300 130 1)) =
        ({ mkWarrior .triangle 250 300 85 0 with
            cooldown := (TYPE_CONFIG WType.triangle).cooldown },
          some (mkWarrior .square 300 300 130 1),
          some (mkProjectile ctxAx (mkWarrior .triangle 250 300 85 0)
            (mkWarrior .square 300 300 130 1)))) :=
  ⟨⟨by decide,
      C5_amended.1 ctxAx (mkWarrior .triangle 250 300 85 (3/10))
        (mkWarrior .square 300 300 130 1) (by decide)⟩,
    by decide, by decide, by decide, by decide,
    C5_amended.2 ctxAx (mkWarrior .triangle 250 300 85 0)
      (mkWarrior .square 300 300 130 1) (by decide) (by decide) (by decide)
      (by decide)⟩

/-- C8: once the outcome is terminal — at most one archetype has a
living member after a step's pruning, i.e. the livingTypes list of the
post-step roster has length ≤ 1 — every further call to step is a
no-op: the whole simulation state is unchanged, so in particular the
per-archetype aliveCounts and the stored outcome (winnerType) never
change.  The step that found the terminal verdict set running := false
(stopAnimation), and step returns its argument unchanged whenever
running is false. -/
theorem C8_terminal_noop (ctx : Ctx) (s : Sim) (t t2 : ℚ)
    (h : (livingTypes (step ctx s t).warriors).length ≤ 1) :
    step ctx (step ctx s t) t2 = step ctx s t ∧
    (∀ ty : WType, aliveCount (step ctx (step ctx s t) t2).warriors ty =
      aliveCount (step ctx s t).warriors ty) ∧
    (step ctx (step ctx s t) t2).winnerType = (step ctx s t).winnerType := by
  have he : step ctx (step ctx s t) t2 = step ctx s t :=
    step_not_running ctx _ t2 (step_terminal_running ctx s t h)
  exact ⟨he, fun ty => by rw [he], by rw [he]⟩

def sEmpty : Sim :=
  { warriors := [], projectiles := [], running := true,
    lastTimestamp := 0, winnerType := none }

/-- C8 witness: an empty battle is terminal (a draw) after one step and
the next step changes nothing. -/
theorem C8_terminal_noop_witness :
    (livingTypes (step ctxAx sEmpty 1000).warriors).length ≤ 1 ∧
    (step ctxAx (step ctxAx sEmpty 1000) 2000 = step ctxAx sEmpty 1000 ∧
      (∀ ty : WType, aliveCount (step ctxAx (step ctxAx sEmpty 1000) 2000).warriors ty =
        aliveCount (step ctxAx sEmpty 1000).warriors ty) ∧
      (step ctxAx (step ctxAx sEmpty 1000) 2000).winnerType =
        (step ctxAx sEmpty 1000).winnerType) :=
  ⟨by decide, C8_terminal_noop ctxAx sEmpty 1000 2000 (by decide)⟩

/-- C10: in Projectile.update, expiring on age (life + dt reaching
maxLife) returns before moving or testing collision — the projectile
comes back dead but unmoved and the roster untouched; expiring by
exiting the arena boundary does not short-circuit collision: a
projectile whose post-move position lies at distance ≥ ARENA_RADIUS
from the center is marked dead, yet when the collision scan finds a
first in-radius living enemy it still damages it (hp drops by the
projectile's damage) in that same update. -/
theorem C10_boundary_no_shortcircuit :
    (∀ (ctx : Ctx) (dt : ℚ) (p : Projectile) (ws : List Warrior),
      p.maxLife ≤ p.life + dt →
      updateProjectile ctx dt p ws =
        ({ p with life := p.life + dt, alive := false }, ws)) ∧
    (∀ (ctx : Ctx) (dt : ℚ) (p : Projectile) (ws : List Warrior)
      (j : ℕ) (e : Warrior),
      ¬ p.maxLife ≤ p.life + dt →
      ctx.arenaRadius ≤
        ctx.hypot (p.x + p.vx * dt - ctx.centerX) (p.y + p.vy * dt - ctx.centerY) →
      firstHitGo ctx (projBoundary ctx
        { p with life := p.life + dt, x := p.x + p.vx * dt, y := p.y + p.vy * dt })
        0 ws = some j →
      ws[j]? = some e →
      updateProjectile ctx dt p ws =
        ({ p with life := p.life + dt, x := p.x + p.vx * dt, y := p.y + p.vy * dt, alive := false },
          ws.set j (takeDamage e p.damage)) ∧
      (takeDamage e p.damage).hp = e.hp - p.damage) := by
  constructor
  · intro ctx dt p ws h
    unfold updateProjectile
    rw [if_pos h]
  · intro ctx dt p ws j e hage hout hfh hje
    refine ⟨?_, takeDamage_hp e p.damage⟩
    have hb : projBoundary ctx
        { p with life := p.life + dt, x := p.x + p.vx * dt, y := p.y + p.vy * dt } =
        { p with life := p.life + dt, x := p.x + p.vx * dt, y := p.y + p.vy * dt, alive := false } := by
      unfold projBoundary
      rw [if_pos hout]
    unfold updateProjectile
    rw [if_neg hage]
    unfold projCollide
    rw [hfh]
    dsimp only
    rw [hje]
    dsimp only
    rw [hb]

def pExit : Projectile :=
  { ownerType := .triangle, damage := 7, x := 555, y := 300, vx := 260, vy := 0,
    life := 0, maxLife := 3.5, alive := true, radius := 4 }

def pOld : Projectile :=
  { ownerType := .triangle, damage := 7, x := 400, y := 300, vx := 260, vy := 0,
    life := 17/5, maxLife := 3.5, alive := true, radius := 4 }

/-- C10 witness: an age-expired projectile returns unmoved with the
roster untouched; a projectile that crosses the boundary (distance
260.2 ≥ 260 after moving) is marked dead and still damages the square
15.2 units away (within 16 + 4). -/
theorem C10_boundary_no_shortcircuit_witness :
    (pOld.maxLife ≤ pOld.life + 1/5 ∧
      updateProjectile ctxAx (1/5) pOld [mkWarrior .square 420 300 130 1] =
        ({ pOld with life := pOld.life + 1/5, alive := false },
          [mkWarrior .square 420 300 130 1])) ∧
    ((¬ pExit.maxLife ≤ pExit.life + 1/50) ∧
      ctxAx.arenaRadius ≤ ctxAx.hypot (pExit.x + pExit.vx * (1/50) - ctxAx.centerX)
        (pExit.y + pExit.vy * (1/50) - ctxAx.centerY) ∧
      ([mkWarrior .square 545 300 130 1][0]? = some (mkWarrior .square 545 300 130 1)) ∧
      (updateProjectile ctxAx (1/50) pExit [mkWarrior .square 545 300 130 1] =
        ({ pExit with life := pExit.life + 1/50, x := pExit.x + pExit.vx * (1/50), y := pExit.y + pExit.vy * (1/50), alive := false },
          [mkWarrior .square 545 300 130 1].set 0
            (takeDamage (mkWarrior .square 545 300 130 1) pExit.damage)) ∧
        (takeDamage (mkWarrior .square 545 300 130 1) pExit.damage).hp =
          (mkWarrior .square 545 300 130 1).hp - pExit.damage)) :=
  ⟨⟨by decide,
      C10_boundary_no_shortcircuit.1 ctxAx (1/5) pOld
        [mkWarrior .square 420 300 130 1] (by decide)⟩,
    by decide, by decide, by decide,
    C10_boundary_no_shortcircuit.2 ctxAx (1/50) pExit
      [mkWarrior .square 545 300 130 1] 0 (mkWarrior .square 545 300 130 1)
      (by decide) (by decide) (by decide) (by decide)⟩

def sC6 : Sim :=
  { warriors := [mkWarrior .triangle 244 300 85 1, mkWarrior .square 300 300 130 1],
    projectiles := [], running := true, lastTimestamp := 0, winnerType := none }

/-- C6 counterexample: a ranged-kiter at (244, 300), exactly
preferredBand.max + 1 = 56 from its only living enemy (the square at
the center), with no other entities or projectiles anywhere.  After the
next step the kiter's position is unchanged — it does not move toward
the enemy at all, because shouldMove is false: 56 is not below
threatRadius = preferredMin * 1.4 = 56 and not above the attack range
60.  (The separation between the two does shrink during the step, but
only because the melee enemy advances; the kiter itself holds
position.) -/
theorem C6_counterexample :
    (sC6.warriors.map fun w => (w.type, w.x, w.y)) =
      [(WType.triangle, (244 : ℚ), (300 : ℚ)), (WType.square, 300, 300)] ∧
    sC6.projectiles = [] ∧
    taxiHypot (300 - 244) (300 - 300) = (TYPE_CONFIG WType.triangle).preferredMax + 1 ∧
    ((step ctxAx sC6 10).warriors.map fun w => (w.type, w.x, w.y)) =
      [(WType.triangle, (244 : ℚ), (300 : ℚ)), (WType.square, 29909/100, 300)] := by
  decide

/-- C6 amended: a ranged-kiter (triangle) whose working distance to its
target is at least threatRadius = preferredMin * 1.4 = 56 and at most
the attack range 60 — which includes the spec's scenario distance
preferredBand.max + 1 = 56 — has shouldMove = false, so its update
leaves its position exactly unchanged: it does not move toward the
enemy (it may still fire at it).  Any decrease of the separation in the
spec's scenario comes from the enemy's own movement. -/
theorem C6_amended (ctx : Ctx) (dt : ℚ) (i j : ℕ) (ws : List Warrior)
    (ps : List Projectile) (w0 tgt : Warrior)
    (hwi : ws[i]? = some w0) (halive : w0.alive = true)
    (htri : w0.type = WType.triangle)
    (hft : findTarget ctx (ws.set i (decayTimers dt w0)) i = some j)
    (htgt : (ws.set i (decayTimers dt w0))[j]? = some tgt)
    (h1 : ¬ distAdj ctx (decayTimers dt w0) tgt <
      (TYPE_CONFIG WType.triangle).preferredMin * 1.4)
    (h2 : ¬ (TYPE_CONFIG WType.triangle).range <
      distAdj ctx (decayTimers dt w0) tgt) :
    ∃ w2, (updateWarrior ctx dt i ws ps).1[i]? = some w2 ∧
      w2.x = w0.x ∧ w2.y = w0.y := by
  have htri2 : (decayTimers dt w0).type = WType.triangle := by
    rw [(decayTimers_fields dt w0).2.2.1]
    exact htri
  exact updateWarrior_holds_position ctx dt i j ws ps w0 tgt hwi halive hft
    htgt (shouldMove_triangle_false ctx _ tgt htri2 h1 h2)

/-- C6 amended witness: in the concrete scenario of the counterexample
the kiter's own update keeps it at (244, 300). -/
theorem C6_amended_witness :
    (sC6.warriors[0]? = some (mkWarrior .triangle 244 300 85 1) ∧
      (mkWarrior .triangle 244 300 85 1).alive = true ∧
      findTarget ctxAx (sC6.warriors.set 0
        (decayTimers (1/100) (mkWarrior .triangle 244 300 85 1))) 0 = some 1 ∧
      ¬ distAdj ctxAx (decayTimers (1/100) (mkWarrior .triangle 244 300 85 1))
          (mkWarrior .square 300 300 130 1) <
        (TYPE_CONFIG WType.triangle).preferredMin * 1.4 ∧
      ¬ (TYPE_CONFIG WType.triangle).range <
        distAdj ctxAx (decayTimers (1/100) (mkWarrior .triangle 244 300 85 1))
          (mkWarrior .square 300 300 130 1)) ∧
    (∃ w2, (updateWarrior ctxAx (1/100) 0 sC6.warriors []).1[0]? = some w2 ∧
      w2.x = (mkWarrior .triangle 244 300 85 1).x ∧
      w2.y = (mkWarrior .triangle 244 300 85 1).y) :=
  ⟨⟨by decide, by decide, by decide, by decide, by decide⟩,
    C6_amended ctxAx (1/100) 0 1 sC6.warriors []
      (mkWarrior .triangle 244 300 85 1) (mkWarrior .square 300 300 130 1)
      (by decide) (by decide) (by decide) (by decide) (by decide)
      (by decide) (by decide)⟩

def sC4 : Sim :=
  { warriors := [mkWarrior .triangle 244 300 85 0, mkWarrior .square 300 300 130 1],
    projectiles := [], running := true, lastTimestamp := 0, winnerType := none }

/-- C4 counterexample: before the step there are no projectiles; the
triangle (cooldown 0, distance 56 ≤ 60) fires during the entity phase
of the step with dt = 0.1.  The claim says that projectile is not aged,
not moved and collision-free until the next step, yet at the end of
this same step the projectile list holds it with life = 0.1 (aged by
dt) and x = 270 (moved 26 units from its spawn abscissa 244): the
projectile loop runs over the shared list after the entity loop, so it
updates newly fired projectiles too. -/
theorem C4_counterexample :
    sC4.projectiles = [] ∧
    (100 - sC4.lastTimestamp) / 1000 = 1/10 ∧
    (sC4.warriors.map fun w => (w.x, w.y)) = [((244 : ℚ), (300 : ℚ)), (300, 300)] ∧
    ((step ctxAx sC4 100).projectiles.map fun p => (p.life, p.x, p.y)) =
      [((1/10 : ℚ), (270 : ℚ), (300 : ℚ))] := by
  decide

/-- C4 amended: a projectile created by an entity's attack during the
entity phase of a step IS updated within that same step: every
projectile present in the list after the entity phase — the newly fired
ones included, since fireProjectile pushes onto the same list the
projectile loop then traverses — comes out of the projectile phase aged
by exactly dt (and moved / collision-tested by the same update). -/
theorem C4_amended (ctx : Ctx) (dt : ℚ) (ws : List Warrior)
    (ps : List Projectile) (i : ℕ) (p : Projectile)
    (hp : (entityPhase ctx dt ws ps).2[i]? = some p) :
    ∃ p2, (projPhase ctx dt (entityPhase ctx dt ws ps).2
        (entityPhase ctx dt ws ps).1).1[i]? = some p2 ∧
      p2.life = p.life + dt := by
  rcases (projPhase_spec ctx dt (entityPhase ctx dt ws ps).2
    (entityPhase ctx dt ws ps).1).2 i p hp with ⟨wsMid, hmid⟩
  exact ⟨_, hmid, updateProjectile_life ctx dt p wsMid⟩

def pSpawn : Projectile :=
  { ownerType := .triangle, damage := 7, x := 244, y := 300, vx := 260, vy := 0,
    life := 0, maxLife := 3.5, alive := true, radius := 4 }

/-- C4 amended witness: in the counterexample scenario the entity phase
appends exactly the projectile fired from (244, 300) toward the square,
and the projectile phase of the same step ages it to life = 0.1. -/
theorem C4_amended_witness :
    (entityPhase ctxAx (1/10) sC4.warriors sC4.projectiles).2[0]? = some pSpawn ∧
    (∃ p2, (projPhase ctxAx (1/10)
        (entityPhase ctxAx (1/10) sC4.warriors sC4.projectiles).2
        (entityPhase ctxAx (1/10) sC4.warriors sC4.projectiles).1).1[0]? = some p2 ∧
      p2.life = pSpawn.life + 1/10) :=
  ⟨by decide,
    C4_amended ctxAx (1/10) sC4.warriors sC4.projectiles 0 pSpawn (by decide)⟩

/-- A pointwise warrior property that survives decay, movement, attack
bookkeeping and damage survives a whole running step; the step's final
filter additionally makes every surviving warrior alive. -/
theorem step_ws_pres (P : Warrior → Prop) (ctx : Ctx) (s : Sim) (t : ℚ)
    (hrun : s.running = true)
    (hDecay : ∀ (dt : ℚ) (w : Warrior), P w → P (decayTimers dt w))
    (hMove : ∀ (dt : ℚ) (w tgt : Warrior) (i : ℕ) (ws : List Warrior)
      (ps : List Projectile), P w → P (moveSelf ctx dt w tgt i ws ps))
    (hAtk : ∀ w t2 : Warrior, P w → P (attemptAttack ctx w (some t2)).1)
    (hTD : ∀ (w : Warrior) (a : ℚ), P w → P (takeDamage w a))
    (hws : ∀ w ∈ s.warriors, P w) :
    ∀ w ∈ (step ctx s t).warriors, P w ∧ w.alive = true := by
  intro w hw
  rw [(step_components ctx s t hrun).1] at hw
  rw [List.mem_filter] at hw
  refine ⟨?_, by simpa using hw.2⟩
  exact projPhase_ws_pres P hTD ctx _ _ _
    (entityPhase_pres P ctx _ (hDecay _) (hMove _) hAtk hTD
      s.warriors s.projectiles hws) _ hw.1

def sC3 : Sim :=
  { warriors := [mkWarrior .circle 300 300 55 0, mkWarrior .square 310 300 130 0],
    projectiles := [], running := true, lastTimestamp := 5, winnerType := none }

/-- C3 counterexample: a step called with the same timestamp as
lastTimestamp has dt = 0, yet it is not a no-op-equivalent tick: the
circle and the square stand 10 units apart (inside melee reach), both
off cooldown, and the zero-dt step lets both attacks land — the
square's hp drops 130 → 121 and the circle's 55 → 37, because
attemptAttack is not gated on dt.  (With a ranged attacker a projectile
would likewise be spawned.) -/
theorem C3_counterexample :
    (5 - sC3.lastTimestamp) / 1000 = 0 ∧
    (sC3.warriors.map Warrior.hp) = [55, 130] ∧
    ((step ctxAx sC3 5).warriors.map Warrior.hp) = [37, 121] ∧
    (step ctxAx sC3 5).warriors ≠ sC3.warriors := by
  decide

/-- C3 amended: with dt = 0 no entity moves (an entity loop at dt = 0
keeps every position of a roster that starts inside the arena bound,
movement displacement being zero and the clamp the identity there) and
no projectile moves, and cooldown decay can never produce a negative
cooldown for any dt; but a zero-dt step is NOT a no-op: attacks are not
gated on dt, so hp can change and projectiles can spawn (see the
counterexample), and with dt < 0 entities can move backward. -/
theorem C3_amended :
    (∀ (ctx : Ctx) (ws : List Warrior) (ps : List Projectile),
      (∀ w ∈ ws, inArena ctx w) →
      ∀ (j : ℕ) (w2 : Warrior), (entityPhase ctx 0 ws ps).1[j]? = some w2 →
        ∃ w, ws[j]? = some w ∧ w2.x = w.x ∧ w2.y = w.y) ∧
    (∀ (ctx : Ctx) (p : Projectile) (ws : List Warrior),
      (updateProjectile ctx 0 p ws).1.x = p.x ∧
      (updateProjectile ctx 0 p ws).1.y = p.y) ∧
    (∀ (dt : ℚ) (w : Warrior), 0 ≤ (decayTimers dt w).cooldown) := by
  refine ⟨?_, fun ctx p ws => updateProjectile_dt0_pos ctx p ws,
    fun dt w => le_max_left 0 (w.cooldown - dt)⟩
  intro ctx ws ps hin j w2 hj
  rcases (entityPhase_dt0_posEq ctx ws ps hin).2 j w2 hj with ⟨w, hwj, hx, hy, _⟩
  exact ⟨w, hwj, hx, hy⟩

/-- C3 amended witness: a zero-dt entity loop leaves the lone circle in
place, a zero-dt projectile update does not move the projectile. -/
theorem C3_amended_witness :
    (∀ w ∈ [mkWarrior .circle 300 300 55 0], inArena ctxAx w) ∧
    (∃ w, [mkWarrior .circle 300 300 55 0][0]? = some w ∧
      (mkWarrior .circle 300 300 55 0).x = w.x ∧
      (mkWarrior .circle 300 300 55 0).y = w.y) ∧
    ((updateProjectile ctxAx 0 pSpawn [mkWarrior .circle 300 300 55 0]).1.x =
        pSpawn.x ∧
      (updateProjectile ctxAx 0 pSpawn [mkWarrior .circle 300 300 55 0]).1.y =
        pSpawn.y) ∧
    0 ≤ (decayTimers (-2) (mkWarrior .circle 300 300 55 0)).cooldown :=
  ⟨by decide,
    C3_amended.1 ctxAx [mkWarrior .circle 300 300 55 0] [] (by decide) 0
      (mkWarrior .circle 300 300 55 0) (by decide),
    C3_amended.2.1 ctxAx pSpawn [mkWarrior .circle 300 300 55 0],
    C3_amended.2.2 (-2) (mkWarrior .circle 300 300 55 0)⟩

/-- C9 counterexample: hp is not clamped at the simulation boundary —
takeDamage simply subtracts, so a warrior at 5 hp hit for 9 (the
circle's melee damage) ends at hp = -4 < 0 immediately after the
takeDamage call.  (The only max(0, ...) on hp in the source is the
renderer's health-bar ratio.) -/
theorem C9_counterexample :
    (mkWarrior .square 300 300 5 0).hp = 5 ∧
    (takeDamage (mkWarrior .square 300 300 5 0) 9).hp = -4 ∧
    (takeDamage (mkWarrior .square 300 300 5 0) 9).hp < 0 := by
  decide

/-- C9 amended: takeDamage does not clamp hp, which can be negative
right after a hit (see the counterexample); the guarantees that do hold
at the step boundary are: after every running step each rostered entity
has hp > 0 (the dead are pruned, and alive entities were never driven
to a nonpositive hp without alive being cleared), and — provided they
were nonnegative before, as they are in every reachable state — attack
cooldowns and retreat timers are never negative after a step, for every
dt: the decay is max(0, value - dt) and the reset values (the config
cooldowns, 0.8 and 0.4) are nonnegative. -/
theorem C9_amended (ctx : Ctx) (s : Sim) (t : ℚ)
    (hrun : s.running = true)
    (hhp : ∀ w ∈ s.warriors, w.alive = true → 0 < w.hp)
    (htm : ∀ w ∈ s.warriors, 0 ≤ w.cooldown ∧ 0 ≤ w.wantRetreat) :
    ∀ w ∈ (step ctx s t).warriors,
      0 < w.hp ∧ 0 ≤ w.cooldown ∧ 0 ≤ w.wantRetreat := by
  have hpres := step_ws_pres
    (fun w => (w.alive = true → 0 < w.hp) ∧ 0 ≤ w.cooldown ∧ 0 ≤ w.wantRetreat)
    ctx s t hrun
    (fun dt w hw => by
      refine ⟨?_, le_max_left 0 (w.cooldown - dt),
        decayTimers_wantRetreat_nonneg dt w hw.2.2⟩
      rw [(decayTimers_fields dt w).2.2.2.2, (decayTimers_fields dt w).2.2.2.1]
      exact hw.1)
    (fun dt w tgt i ws ps hw => by
      obtain ⟨mhp, mal, _, mcd, mwr⟩ := moveSelf_vitals ctx dt w tgt i ws ps
      rw [mhp, mal, mcd, mwr]
      exact hw)
    (fun w t2 hw => by
      obtain ⟨⟨_, _, _, ahp, aal⟩, acd, awr⟩ := attemptAttack_self ctx w t2
      refine ⟨?_, ?_, ?_⟩
      · rw [ahp, aal]
        exact hw.1
      · rcases acd with h | h <;> rw [h]
        · exact hw.2.1
        · exact cfg_cooldown_nonneg w.type
      · rcases awr with h | h | h <;> rw [h]
        · exact hw.2.2
        · norm_num
        · norm_num)
    (fun w a hw => by
      obtain ⟨_, _, _, tcd, twr⟩ := takeDamage_fields w a
      rw [tcd, twr]
      exact ⟨fun _ => takeDamage_alive_pos w a (by assumption), hw.2⟩)
    (fun w hw => ⟨hhp w hw, htm w hw⟩)
  intro w hw
  obtain ⟨⟨h1, h2⟩, halive⟩ := hpres w hw
  exact ⟨h1 halive, h2⟩

def sC9 : Sim :=
  { warriors := [mkWarrior .circle 300 300 55 (1/4), mkWarrior .square 310 300 130 0],
    projectiles := [], running := true, lastTimestamp := 0, winnerType := none }

/-- C9 amended witness: after a step of the melee pair, every rostered
warrior has positive hp and nonnegative timers. -/
theorem C9_amended_witness :
    sC9.running = true ∧
    (∀ w ∈ sC9.warriors, w.alive = true → 0 < w.hp) ∧
    (∀ w ∈ sC9.warriors, 0 ≤ w.cooldown ∧ 0 ≤ w.wantRetreat) ∧
    (∀ w ∈ (step ctxAx sC9 20).warriors,
      0 < w.hp ∧ 0 ≤ w.cooldown ∧ 0 ≤ w.wantRetreat) :=
  ⟨rfl, by decide, by decide,
    C9_amended ctxAx sC9 20 rfl (by decide) (by decide)⟩

/-- C1: the alive flag tracks hp.  (1) After every running step, every
entity still in the roster is alive with hp > 0 — so alive = (hp > 0)
holds across the roster — provided every entity satisfied
alive → hp > 0 before (as every reachable state does: spawns start at
full hp and takeDamage clears alive the moment hp drops to 0 or below).
(2) takeDamage preserves the full invariant alive ↔ hp > 0 for every
nonnegative amount.  (3) A dead entity's update takes no action at all:
updateWarrior returns the roster and projectile list unchanged.
(4) findTarget never selects a dead entity.  (5) A projectile update
never touches a dead entity: its roster slot is returned unchanged. -/
theorem C1_alive_iff_hp :
    (∀ (ctx : Ctx) (s : Sim) (t : ℚ), s.running = true →
      (∀ w ∈ s.warriors, w.alive = true → 0 < w.hp) →
      ∀ w ∈ (step ctx s t).warriors, w.alive = true ∧ 0 < w.hp) ∧
    (∀ (w : Warrior) (a : ℚ), 0 ≤ a → (w.alive = true ↔ 0 < w.hp) →
      ((takeDamage w a).alive = true ↔ 0 < (takeDamage w a).hp)) ∧
    (∀ (ctx : Ctx) (dt : ℚ) (i : ℕ) (ws : List Warrior) (ps : List Projectile)
      (w : Warrior), ws[i]? = some w → w.alive = false →
      updateWarrior ctx dt i ws ps = (ws, ps)) ∧
    (∀ (ctx : Ctx) (ws : List Warrior) (i j : ℕ), findTarget ctx ws i = some j →
      ∃ e, ws[j]? = some e ∧ e.alive = true) ∧
    (∀ (ctx : Ctx) (dt : ℚ) (p : Projectile) (ws : List Warrior) (j : ℕ)
      (e : Warrior), ws[j]? = some e → e.alive = false →
      (updateProjectile ctx dt p ws).2[j]? = some e) := by
  refine ⟨?_, takeDamage_alive_iff,
    fun ctx dt i ws ps w => updateWarrior_dead ctx dt i ws ps w,
    ?_, fun ctx dt p ws j e => updateProjectile_dead_untouched ctx dt p ws j e⟩
  · intro ctx s t hrun hws w hw
    have hpres := step_ws_pres (fun w => w.alive = true → 0 < w.hp) ctx s t hrun
      (fun dt w hw2 => by
        show (decayTimers dt w).alive = true → 0 < (decayTimers dt w).hp
        rw [(decayTimers_fields dt w).2.2.2.2, (decayTimers_fields dt w).2.2.2.1]
        exact hw2)
      (fun dt w tgt i ws2 ps hw2 => by
        obtain ⟨mhp, mal, _, _, _⟩ := moveSelf_vitals ctx dt w tgt i ws2 ps
        rw [mhp, mal]
        exact hw2)
      (fun w t2 hw2 => by
        obtain ⟨⟨_, _, _, ahp, aal⟩, _, _⟩ := attemptAttack_self ctx w t2
        rw [ahp, aal]
        exact hw2)
      (fun w a _ => takeDamage_alive_pos w a)
      hws
    obtain ⟨himp, halive⟩ := hpres w hw
    exact ⟨halive, himp halive⟩
  · intro ctx ws i j hft
    rcases findTarget_spec ctx ws i j hft with ⟨_, e, hje, halive, _⟩
    exact ⟨e, hje, halive⟩

def sC1 : Sim :=
  { warriors := [mkWarrior .circle 260 300 55 0, mkWarrior .square 310 300 3 0,
      mkWarrior .triangle 240 300 85 0],
    projectiles := [], running := true, lastTimestamp := 0, winnerType := none }

def wDead : Warrior :=
  { type := WType.circle, x := 300, y := 300, hp := -4, cooldown := 0,
    alive := false, lastHitDirX := 1, lastHitDirY := 0, wantRetreat := 0 }

/-- C1 witness: after one step of a three-party battle every rostered
warrior is alive with positive hp; takeDamage for 9 keeps the invariant
on a 3-hp square (it dies: alive and hp > 0 turn false together); a
dead warrior is skipped by updateWarrior, never chosen by findTarget
and never touched by a projectile update. -/
theorem C1_alive_iff_hp_witness :
    (sC1.running = true ∧
      (∀ w ∈ sC1.warriors, w.alive = true → 0 < w.hp) ∧
      (∀ w ∈ (step ctxAx sC1 50).warriors, w.alive = true ∧ 0 < w.hp)) ∧
    ((0 : ℚ) ≤ 9 ∧ ((mkWarrior .square 310 300 3 0).alive = true ↔
        0 < (mkWarrior .square 310 300 3 0).hp) ∧
      ((takeDamage (mkWarrior .square 310 300 3 0) 9).alive = true ↔
        0 < (takeDamage (mkWarrior .square 310 300 3 0) 9).hp)) ∧
    ([wDead, mkWarrior .square 310 300 130 0][0]? = some wDead ∧
      wDead.alive = false ∧
      updateWarrior ctxAx (1/10) 0 [wDead, mkWarrior .square 310 300 130 0] [] =
        ([wDead, mkWarrior .square 310 300 130 0], [])) ∧
    (findTarget ctxAx [mkWarrior .circle 260 300 55 0, wDead,
        mkWarrior .square 310 300 130 0] 0 = some 2 ∧
      ∃ e, [mkWarrior .circle 260 300 55 0, wDead,
        mkWarrior .square 310 300 130 0][2]? = some e ∧ e.alive = true) ∧
    ([wDead][0]? = some wDead ∧ wDead.alive = false ∧
      (updateProjectile ctxAx (1/10) pSpawn [wDead]).2[0]? = some wDead) :=
  ⟨⟨rfl, by decide, C1_alive_iff_hp.1 ctxAx sC1 50 rfl (by decide)⟩,
    ⟨by decide, by decide,
      C1_alive_iff_hp.2.1 (mkWarrior .square 310 300 3 0) 9 (by decide) (by decide)⟩,
    ⟨by decide, by decide,
      C1_alive_iff_hp.2.2.1 ctxAx (1/10) 0 [wDead, mkWarrior .square 310 300 130 0]
        [] wDead (by decide) (by decide)⟩,
    ⟨by decide,
      C1_alive_iff_hp.2.2.2.1 ctxAx [mkWarrior .circle 260 300 55 0, wDead,
        mkWarrior .square 310 300 130 0] 0 2 (by decide)⟩,
    ⟨by decide, by decide,
      C1_alive_iff_hp.2.2.2.2 ctxAx (1/10) pSpawn [wDead] 0 wDead
        (by decide) (by decide)⟩⟩

/-- C7: after every running step, provided the hypot model scales
(hypot(ac, bc) = hypot(a, b)·c for c ≥ 0, true of the Euclidean norm),
the arena is at least as large as every body radius, and every entity
started within its clamp bound, every entity in the roster is at
distance at most arenaRadius - size from the center (movers are
rescaled radially onto that circle by clampInsideArena, non-movers stay
where they were), and every projectile still in the list is at distance
strictly less than arenaRadius (Projectile.update marks any projectile
at or beyond that distance dead after moving, and the step filters dead
projectiles out). -/
theorem C7_arena_bounds (ctx : Ctx) (s : Sim) (t : ℚ)
    (hrun : s.running = true)
    (hscale : ∀ a b c : ℚ, 0 ≤ c → ctx.hypot (a * c) (b * c) = ctx.hypot a b * c)
    (hsize : ∀ ty : WType, 0 ≤ ctx.arenaRadius - (TYPE_CONFIG ty).size)
    (hws : ∀ w ∈ s.warriors, inArena ctx w) :
    (∀ w ∈ (step ctx s t).warriors, inArena ctx w) ∧
    (∀ p ∈ (step ctx s t).projectiles,
      ctx.hypot (p.x - ctx.centerX) (p.y - ctx.centerY) < ctx.arenaRadius) := by
  constructor
  · intro w hw
    have hpres := step_ws_pres (fun w => inArena ctx w) ctx s t hrun
      (fun dt w hw2 => by
        show inArena ctx (decayTimers dt w)
        unfold inArena
        rw [(decayTimers_fields dt w).1, (decayTimers_fields dt w).2.1,
          (decayTimers_fields dt w).2.2.1]
        exact hw2)
      (fun dt w tgt i ws2 ps hw2 => by
        rcases moveSelf_shape ctx dt w tgt i ws2 ps with h | ⟨a, b, h⟩
        · rw [h]
          exact hw2
        · rw [h]
          exact clamp_inArena ctx hscale hsize _)
      (fun w t2 hw2 => by
        obtain ⟨⟨ax2, ay2, aty, _, _⟩, _, _⟩ := attemptAttack_self ctx w t2
        unfold inArena
        rw [ax2, ay2, aty]
        exact hw2)
      (fun w a hw2 => by
        obtain ⟨tx, ty2, tty, _, _⟩ := takeDamage_fields w a
        unfold inArena
        rw [tx, ty2, tty]
        exact hw2)
      hws
    exact (hpres w hw).1
  · intro p hp
    rw [(step_components ctx s t hrun).2] at hp
    rw [List.mem_filter] at hp
    obtain ⟨hmem, halive⟩ := hp
    rcases List.mem_iff_getElem?.mp hmem with ⟨i, hi⟩
    have hilen : i < (entityPhase ctx ((t - s.lastTimestamp) / 1000)
        s.warriors s.projectiles).2.length := by
      have h1 := (List.getElem?_eq_some_iff.mp hi).1
      have h2 := (projPhase_spec ctx ((t - s.lastTimestamp) / 1000)
        (entityPhase ctx ((t - s.lastTimestamp) / 1000) s.warriors s.projectiles).2
        (entityPhase ctx ((t - s.lastTimestamp) / 1000) s.warriors s.projectiles).1).1
      rw [h2] at h1
      exact h1
    rcases hq : (entityPhase ctx ((t - s.lastTimestamp) / 1000)
        s.warriors s.projectiles).2[i]? with _ | q
    · rw [List.getElem?_eq_none_iff] at hq
      omega
    rcases (projPhase_spec ctx ((t - s.lastTimestamp) / 1000)
      (entityPhase ctx ((t - s.lastTimestamp) / 1000) s.warriors s.projectiles).2
      (entityPhase ctx ((t - s.lastTimestamp) / 1000) s.warriors s.projectiles).1).2
      i q hq with ⟨wsMid, hmid⟩
    rw [hi] at hmid
    have hpe := (Option.some.inj hmid).symm
    exact updateProjectile_alive_inb ctx _ _ wsMid p hpe (by simpa using halive)

def sC7 : Sim :=
  { warriors := [mkWarrior .triangle 250 300 85 0, mkWarrior .square 300 300 130 1],
    projectiles := [pSpawn], running := true, lastTimestamp := 0, winnerType := none }

/-- C7 witness: the taxicab hypot satisfies the scaling law, the arena
radius 260 dominates every body size, both warriors start inside their
clamp bounds, and after the step every rostered warrior is still inside
its bound and every surviving projectile strictly inside the arena. -/
theorem C7_arena_bounds_witness :
    sC7.running = true ∧
    (∀ a b c : ℚ, 0 ≤ c → ctxAx.hypot (a * c) (b * c) = ctxAx.hypot a b * c) ∧
    (∀ ty : WType, 0 ≤ ctxAx.arenaRadius - (TYPE_CONFIG ty).size) ∧
    (∀ w ∈ sC7.warriors, inArena ctxAx w) ∧
    ((∀ w ∈ (step ctxAx sC7 100).warriors, inArena ctxAx w) ∧
      (∀ p ∈ (step ctxAx sC7 100).projectiles,
        ctxAx.hypot (p.x - ctxAx.centerX) (p.y - ctxAx.centerY) <
          ctxAx.arenaRadius)) :=
  ⟨rfl, taxiHypot_scale, by intro ty; cases ty <;> decide, by decide,
    C7_arena_bounds ctxAx sC7 100 rfl taxiHypot_scale
      (by intro ty; cases ty <;> decide) (by decide)⟩

end Arena
